import Mathlib

/-!
# nextjs-security: blocklist, rate-limit engine, endpoint matcher and request logger

A shallow embedding of `src/lib/geoIP.js`, `src/lib/logger.js` and the two
middlewares.

Conventions of the embedding.

* The three JSON files under `logs/` are the state.  A file that is missing or
  whose text does not parse is `none`; the `load*` functions turn that into the
  empty collection exactly as the `catch` branches of the source do.  Files that
  hold valid JSON of another shape than the one documented are not represented.
* Writes (`fs.writeFileSync`) are embedded as succeeding.
* JavaScript numbers that occur (`count`, `firstRequest`, `window`, `limit`,
  `Date.now()`) are integers and are embedded as `Int`.
* A JavaScript object is an association list with one entry per key, in key
  order.  Addresses are ordinary strings (not names of `Object.prototype`
  properties).
* A thrown exception is recorded in the result together with the state of the
  files at the moment of the throw.
* External packages (`request-ip`, `geoip-lite`, `user-agent`) and the byte
  length of the serialised log are parameters, gathered in `Extern`;
  `useragent.parse` is given a header that is present, and its `TypeError` on
  an absent header is embedded in `getRequestDetails`.
* `toLowerCase` on a header name is `String.toLower`, which lowers the letters
  `A`-`Z`; no character outside ASCII lower-cases to a letter that occurs in
  `host`, `referer`, `content-type` or `accept`, so the header filter decides
  the same names.
-/

namespace NextjsSecurity

/-! ## Data model -/

/-- Exceptions raised by the embedded JavaScript.  `unsupportedRegExp` is not a
JavaScript error: it marks an endpoint pattern that uses regular-expression
syntax outside the fragment embedded in `parseRegExp`. -/
inductive JsError
  | typeError
  | syntaxError
  | unsupportedRegExp
  deriving DecidableEq, Repr

/-- One value of `rateLimit.json`: `{ count, firstRequest }`. -/
structure RateRecord where
  count : Int
  firstRequest : Int
  deriving DecidableEq, Repr

/-- The object stored in `rateLimit.json`, keyed by address. -/
abbrev RateLimitData := List (String × RateRecord)

/-- The `rateLimitConfig` object; an absent property is `none`. -/
structure RateLimitConfig where
  window : Option Int
  limit : Option Int
  deriving DecidableEq, Repr

/-- The object returned by `getRequestDetails` and appended to `requests.json`. -/
structure LogEntry where
  ip : String
  userAgent : String
  geo : Option String
  timestamp : Int
  method : String
  endpoint : String
  body : String
  headers : List (String × String)
  deriving DecidableEq, Repr

/-- The file `logs/requests.json`: absent, or present with its size in bytes
(`fs.statSync(..).size`) and the array its text parses to (`none` when the text
is not valid JSON, as after `fs.truncateSync(.., 0)`). -/
inductive LogFile
  | missing
  | present (size : Nat) (content : Option (List LogEntry))
  deriving DecidableEq, Repr

/-- The three files under `logs/`. -/
structure Stores where
  blockedIps : Option (List String)
  rateLimit : Option RateLimitData
  logs : LogFile
  deriving DecidableEq, Repr

/-! ## `src/lib/geoIP.js`: the ban list -/

def DEFAULT_RATE_LIMIT_WINDOW : Int := 30 * 60 * 1000

def DEFAULT_REQUEST_LIMIT : Int := 1000

/-- `loadBlockedIps`: the parsed file, or `[]` when reading or parsing throws. -/
def loadBlockedIps (s : Stores) : List String :=
  match s.blockedIps with
  | some blockedIps => blockedIps
  | none => []

/-- `saveBlockedIps`: rewrites the whole file. -/
def saveBlockedIps (blockedIps : List String) (s : Stores) : Stores :=
  { s with blockedIps := some blockedIps }

/-- `isIpBlocked`: `blockedIps.includes(ip)`. -/
def isIpBlocked (s : Stores) (ip : String) : Bool :=
  (loadBlockedIps s).contains ip

/-- `addIPToBlocklist`: pushes and saves only when `ip` is not yet included. -/
def addIPToBlocklist (ip : String) (s : Stores) : Stores :=
  let blockedIps := loadBlockedIps s
  if !blockedIps.contains ip then
    saveBlockedIps (blockedIps ++ [ip]) s
  else
    s

/-- `removeIPFromBlocklist`: filters every occurrence out and saves. -/
def removeIPFromBlocklist (ip : String) (s : Stores) : Stores :=
  saveBlockedIps ((loadBlockedIps s).filter (fun blockedIp => blockedIp != ip)) s

/-! ## `src/lib/geoIP.js`: the rate-limit engine -/

/-- `loadRateLimitData`: the parsed file, or `{}` when reading or parsing throws. -/
def loadRateLimitData (s : Stores) : RateLimitData :=
  match s.rateLimit with
  | some data => data
  | none => []

/-- `saveRateLimitData`: rewrites the whole file. -/
def saveRateLimitData (data : RateLimitData) (s : Stores) : Stores :=
  { s with rateLimit := some data }

/-- Property read `rateLimitData[ip]`. -/
def lookupRecord (data : RateLimitData) (ip : String) : Option RateRecord :=
  match data with
  | [] => none
  | (k, r) :: rest => if k = ip then some r else lookupRecord rest ip

/-- Property write `rateLimitData[ip] = r`: an existing key keeps its position,
a new key is added last. -/
def putRecord (data : RateLimitData) (ip : String) (r : RateRecord) : RateLimitData :=
  match data with
  | [] => [(ip, r)]
  | (k, r0) :: rest =>
    if k = ip then (k, r) :: rest.filter (fun e => e.1 != ip)
    else (k, r0) :: putRecord rest ip r

/-- `delete rateLimitData[ip]`. -/
def deleteRecord (data : RateLimitData) (ip : String) : RateLimitData :=
  data.filter (fun e => e.1 != ip)

/-- Lines 80-86 of `trackRequest`: a new record `{count: 1, firstRequest: now}`
when `ip` has none, otherwise `count += 1` on the existing one. -/
def bumpRecord (data : RateLimitData) (ip : String) (now : Int) : RateLimitData :=
  match lookupRecord data ip with
  | none => putRecord data ip { count := 1, firstRequest := now }
  | some r => putRecord data ip { count := r.count + 1, firstRequest := r.firstRequest }

/-- Lines 88-94 of `trackRequest`: every key whose record satisfies
`now - firstRequest > window` is deleted (each key of the object is visited
once, so this is a filter on the entries). -/
def removeOutdated (data : RateLimitData) (now window : Int) : RateLimitData :=
  data.filter (fun e => !decide (now - e.2.firstRequest > window))

/-- What a call of `trackRequest` leaves behind: the files, and the exception
when one was thrown. -/
structure TrackResult where
  stores : Stores
  thrown : Option JsError
  deriving DecidableEq, Repr

/-- `trackRequest(ip, rateLimitConfig)` with `Date.now() = now`.

* Destructuring an `undefined` config throws a `TypeError` (line 74).
* After the sweep, line 97 reads `rateLimitData[ip].count`; when the sweep has
  deleted the record of `ip` this is a property read on `undefined`, a
  `TypeError`, raised before anything was written. -/
def trackRequest (ip : String) (rateLimitConfig : Option RateLimitConfig) (now : Int)
    (s : Stores) : TrackResult :=
  match rateLimitConfig with
  | none => { stores := s, thrown := some JsError.typeError }
  | some cfg =>
    let window := cfg.window.getD DEFAULT_RATE_LIMIT_WINDOW
    let limit := cfg.limit.getD DEFAULT_REQUEST_LIMIT
    let rateLimitData := removeOutdated (bumpRecord (loadRateLimitData s) ip now) now window
    match lookupRecord rateLimitData ip with
    | none => { stores := s, thrown := some JsError.typeError }
    | some r =>
      if r.count > limit then
        { stores := saveRateLimitData (deleteRecord rateLimitData ip) (addIPToBlocklist ip s),
          thrown := none }
      else
        { stores := saveRateLimitData rateLimitData s, thrown := none }

/-- Consecutive calls `trackRequest(ip, cfg)` at the clock readings `times`, in
order; a throw ends the run. -/
def trackRun (ip : String) (cfg : Option RateLimitConfig) : List Int → Stores → TrackResult
  | [], s => { stores := s, thrown := none }
  | now :: times, s =>
    let r := trackRequest ip cfg now s
    match r.thrown with
    | some e => { stores := r.stores, thrown := some e }
    | none => trackRun ip cfg times r.stores

/-! ## `src/lib/logger.js`: the endpoint matcher

`matchEndpoint` builds `new RegExp(pattern.replace('*', '.*'))` and calls
`test`.  The embedded fragment of the regular-expression syntax is: pattern
characters (any character that is not one of the syntax characters
`^ $ \ . * + ? ( ) [ ] { } |`), the atom `.`, and the quantifier `*` after an
atom.  A `*` with nothing to repeat is the `SyntaxError` the constructor throws;
every other use of a syntax character is reported as `unsupportedRegExp`.
Strings are sequences of `Char`; for text in the Basic Multilingual Plane these
are the UTF-16 code units the JavaScript matcher works on. -/

/-- `pattern.replace('*', '.*')`: a string pattern replaces the first
occurrence only. -/
def replaceFirstStar : List Char → List Char
  | [] => []
  | c :: cs => if c = '*' then '.' :: '*' :: cs else c :: replaceFirstStar cs

/-- The `SyntaxCharacter` production of the regular-expression grammar. -/
def isSyntaxCharacter (c : Char) : Bool :=
  "^$\x5c.*+?()[]\x7b\x7d|".data.contains c

/-- The `LineTerminator` characters, which `.` does not match. -/
def isLineTerminator (c : Char) : Bool :=
  c.toNat = 0x0A || c.toNat = 0x0D || c.toNat = 0x2028 || c.toNat = 0x2029

/-- An atom of the embedded fragment. -/
inductive RegExpAtom
  | char (c : Char)
  | dot
  deriving DecidableEq, Repr

/-- An atom, possibly under the quantifier `*`. -/
structure RegExpTerm where
  atom : RegExpAtom
  star : Bool
  deriving DecidableEq, Repr

/-- The outcome of a call that may throw. -/
inductive Completion (α : Type)
  | normal (value : α)
  | throw (error : JsError)
  deriving DecidableEq, Repr

/-- One atom of the pattern text. -/
def parseAtom (c : Char) : Completion RegExpAtom :=
  if c = '.' then Completion.normal RegExpAtom.dot
  else if c = '*' then Completion.throw JsError.syntaxError
  else if isSyntaxCharacter c then Completion.throw JsError.unsupportedRegExp
  else Completion.normal (RegExpAtom.char c)

/-- `new RegExp(text)` on the embedded fragment. -/
def parseRegExp : List Char → Completion (List RegExpTerm)
  | [] => Completion.normal []
  | [c] =>
    match parseAtom c with
    | Completion.throw e => Completion.throw e
    | Completion.normal a => Completion.normal [{ atom := a, star := false }]
  | c :: d :: cs =>
    match parseAtom c with
    | Completion.throw e => Completion.throw e
    | Completion.normal a =>
      if d = '*' then
        match parseRegExp cs with
        | Completion.throw e => Completion.throw e
        | Completion.normal ts => Completion.normal ({ atom := a, star := true } :: ts)
      else
        match parseRegExp (d :: cs) with
        | Completion.throw e => Completion.throw e
        | Completion.normal ts => Completion.normal ({ atom := a, star := false } :: ts)

/-- Whether an atom matches one character of the input. -/
def RegExpAtom.accepts : RegExpAtom → Char → Bool
  | RegExpAtom.char c, d => c == d
  | RegExpAtom.dot, d => !isLineTerminator d

/-- The quantifier `*` on atom `a`, followed by the continuation `k`: zero or
more characters accepted by `a`, then `k` on what is left. -/
def starLoop (a : RegExpAtom) (k : List Char → Bool) : List Char → Bool
  | [] => k []
  | c :: rest => k (c :: rest) || (a.accepts c && starLoop a k rest)

/-- Whether the terms match at the start of the input (the input may go on
after the match). -/
def matchHere : List RegExpTerm → List Char → Bool
  | [], _ => true
  | t :: ts, input =>
    if t.star then starLoop t.atom (matchHere ts) input
    else
      match input with
      | [] => false
      | c :: rest => t.atom.accepts c && matchHere ts rest

/-- `regex.test(input)` without flags: a match starting at any position. -/
def regExpTest (re : List RegExpTerm) : List Char → Bool
  | [] => matchHere re []
  | c :: rest => matchHere re (c :: rest) || regExpTest re rest

/-- A pattern made of pattern characters only: no syntax character of the
regular-expression grammar occurs in it. -/
def isLiteralPattern (pattern : String) : Bool :=
  pattern.data.all (fun c => !isSyntaxCharacter c)

/-- The terms a run of pattern characters parses to. -/
def literalTerms (cs : List Char) : List RegExpTerm :=
  cs.map (fun c => { atom := RegExpAtom.char c, star := false })

/-- `matchEndpoint(url, pattern)`. -/
def matchEndpoint (url pattern : String) : Completion Bool :=
  match parseRegExp (replaceFirstStar pattern.data) with
  | Completion.throw e => Completion.throw e
  | Completion.normal regex => Completion.normal (regExpTest regex url.data)

/-! ## Requests, options and the external packages -/

/-- The parts of the request object the code reads. -/
structure Request where
  headers : List (String × String)
  remoteAddress : Option String
  socketRemoteAddress : Option String
  method : String
  originalUrl : String
  body : String
  deriving DecidableEq, Repr

/-- One element of `saveEndpoints`. -/
structure EndpointRule where
  method : String
  endpoint : String
  deriving DecidableEq, Repr

/-- The `options` argument of `logRequest`; an absent property is `none`. -/
structure Options where
  saveEndpoints : Option (List EndpointRule)
  maxSize : Option Int
  rateLimitConfig : Option RateLimitConfig
  deriving DecidableEq, Repr

/-- The external packages and the serialiser: `requestIp.getClientIp`,
`geoip.lookup`, `useragent.parse` on a header that is present, and the byte
length of `JSON.stringify(logs, null, 2)`.  `useragent.parse` calls string
methods on its argument: on a string it returns its descriptor, on `undefined`
it throws a `TypeError`; the throw is part of `getRequestDetails`. -/
structure Extern where
  getClientIp : Request → String
  geoLookup : String → Option String
  parseUserAgent : String → String
  jsonSize : List LogEntry → Nat

/-- Property read `req.headers[name]`. -/
def headerLookup (headers : List (String × String)) (name : String) : Option String :=
  match headers with
  | [] => none
  | (k, v) :: rest => if k = name then some v else headerLookup rest name

/-- JavaScript `a || b` on values that are a string or `undefined`: the empty
string and `undefined` are falsy. -/
def orElse (a b : Option String) : Option String :=
  match a with
  | some v => if v = "" then b else some v
  | none => b

/-! ## `src/lib/geoIP.js`: `getRequestDetails` -/

def essentialHeaders : List String := ["host", "referer", "content-type", "accept"]

/-- What a call of `getRequestDetails` leaves behind: the files, and either the
returned object or the exception. -/
structure DetailsResult where
  stores : Stores
  outcome : Completion LogEntry
  deriving DecidableEq, Repr

/-- Lines 111 and 114-132 of `getRequestDetails`: the returned object, given the
descriptor `userAgent` that `useragent.parse` returned at line 112, with the
header filter `essentialHeaders.includes(key.toLowerCase())`. -/
def requestDetails (x : Extern) (req : Request) (timestamp : Int) (userAgent : String) :
    LogEntry :=
  { ip := x.getClientIp req,
    userAgent := userAgent,
    geo := x.geoLookup (x.getClientIp req),
    timestamp := timestamp,
    method := req.method,
    endpoint := req.originalUrl,
    body := req.body,
    headers := req.headers.filter (fun h => essentialHeaders.contains h.1.toLower) }

/-- `getRequestDetails(req, rateLimitConfig)`, with `Date.now() = now` inside
`trackRequest` and `new Date() = timestamp`.

* The first statement after the address resolution is `trackRequest` (line
  109); a throw there leaves the function.
* Line 112 is `useragent.parse(req.headers['user-agent'])`; when the request has
  no `user-agent` header the argument is `undefined` and the call throws a
  `TypeError`, after `trackRequest` has saved its files. -/
def getRequestDetails (x : Extern) (req : Request) (rateLimitConfig : Option RateLimitConfig)
    (now timestamp : Int) (s : Stores) : DetailsResult :=
  let clientIp := x.getClientIp req
  let tracked := trackRequest clientIp rateLimitConfig now s
  match tracked.thrown with
  | some e => { stores := tracked.stores, outcome := Completion.throw e }
  | none =>
    match headerLookup req.headers "user-agent" with
    | none => { stores := tracked.stores, outcome := Completion.throw JsError.typeError }
    | some header =>
      { stores := tracked.stores,
        outcome := Completion.normal (requestDetails x req timestamp (x.parseUserAgent header)) }

/-! ## `src/lib/logger.js`: `logRequest` -/

/-- `loadLogs`: the parsed file, or `[]` when reading or parsing throws. -/
def loadLogs (s : Stores) : List LogEntry :=
  match s.logs with
  | LogFile.present _ (some logs) => logs
  | _ => []

/-- `saveLogs`: rewrites the whole file. -/
def saveLogs (x : Extern) (logs : List LogEntry) (s : Stores) : Stores :=
  { s with logs := LogFile.present (x.jsonSize logs) (some logs) }

/-- `checkFileSizeAndClear`: a file larger than `maxSize` is truncated to
length 0; a missing file makes `statSync` throw `ENOENT`, which is swallowed. -/
def checkFileSizeAndClear (maxSize : Int) (s : Stores) : Stores :=
  match s.logs with
  | LogFile.missing => s
  | LogFile.present size _ =>
    if (size : Int) > maxSize then { s with logs := LogFile.present 0 none } else s

/-- The `shouldLog` expression: `saveEndpoints.some(endpoint => (endpoint.method
=== '*' || endpoint.method === req.method) && matchEndpoint(req.originalUrl,
endpoint.endpoint))`.  `matchEndpoint` runs only for a rule whose method test
passed, and `some` stops at the first rule that yields `true`. -/
def shouldLog (method originalUrl : String) : List EndpointRule → Completion Bool
  | [] => Completion.normal false
  | endpoint :: rest =>
    if endpoint.method = "*" ∨ endpoint.method = method then
      match matchEndpoint originalUrl endpoint.endpoint with
      | Completion.throw e => Completion.throw e
      | Completion.normal true => Completion.normal true
      | Completion.normal false => shouldLog method originalUrl rest
    else shouldLog method originalUrl rest

/-- Line 16 of `logRequest`:
`req.headers['x-forwarded-for'] || req.connection.remoteAddress`. -/
def logRequestClientIp (req : Request) : Option String :=
  orElse (headerLookup req.headers "x-forwarded-for") req.remoteAddress

/-- `isIpBlocked(clientIp)` for a `clientIp` that may be `undefined`; an array of
strings does not include `undefined`. -/
def isClientBlocked (s : Stores) (clientIp : Option String) : Bool :=
  match clientIp with
  | some ip => isIpBlocked s ip
  | none => false

/-- What a call of `logRequest` leaves behind: the files, the status of the
response when one was sent, how often `next()` was called, and the exception
when the returned promise is rejected. -/
structure LogResult where
  stores : Stores
  status : Option Nat
  nextCalls : Nat
  thrown : Option JsError
  deriving DecidableEq, Repr

/-- `saveEndpoints = []` in the destructuring of `options`. -/
def Options.saveEndpointsOrDefault (options : Options) : List EndpointRule :=
  options.saveEndpoints.getD []

/-- `maxSize = 10 * 1024 * 1024` in the destructuring of `options`. -/
def Options.maxSizeOrDefault (options : Options) : Int :=
  options.maxSize.getD (10 * 1024 * 1024)

/-- `rateLimitConfig = {}` in the destructuring of `options`. -/
def Options.rateLimitConfigOrDefault (options : Options) : RateLimitConfig :=
  options.rateLimitConfig.getD { window := none, limit := none }

/-- `logRequest(req, res, next, options)`, with the clock readings of
`getRequestDetails`.  The `try` block around `loadLogs`/`push`/`saveLogs`
cannot throw under the conventions of the embedding. -/
def logRequest (x : Extern) (req : Request) (options : Options) (now timestamp : Int)
    (s : Stores) : LogResult :=
  let saveEndpoints := options.saveEndpointsOrDefault
  let maxSize := options.maxSizeOrDefault
  let rateLimitConfig := options.rateLimitConfigOrDefault
  let clientIp := logRequestClientIp req
  if isClientBlocked s clientIp then
    { stores := s, status := some 403, nextCalls := 0, thrown := none }
  else
    match shouldLog req.method req.originalUrl saveEndpoints with
    | Completion.throw e => { stores := s, status := none, nextCalls := 0, thrown := some e }
    | Completion.normal false => { stores := s, status := none, nextCalls := 1, thrown := none }
    | Completion.normal true =>
      let details := getRequestDetails x req (some rateLimitConfig) now timestamp s
      match details.outcome with
      | Completion.throw e =>
        { stores := details.stores, status := none, nextCalls := 0, thrown := some e }
      | Completion.normal logData =>
        let cleared := checkFileSizeAndClear maxSize details.stores
        let logs := loadLogs cleared
        { stores := saveLogs x (logs ++ [logData]) cleared, status := none, nextCalls := 1,
          thrown := none }

/-- `blockIPMiddleware(req, res, next)`: the address is
`req.connection.remoteAddress || req.socket.remoteAddress ||
req.headers['x-forwarded-for']`. -/
def blockIPMiddleware (req : Request) (s : Stores) : LogResult :=
  let clientIp := orElse (orElse req.remoteAddress req.socketRemoteAddress)
    (headerLookup req.headers "x-forwarded-for")
  if isClientBlocked s clientIp then
    { stores := s, status := some 403, nextCalls := 0, thrown := none }
  else
    { stores := s, status := none, nextCalls := 1, thrown := none }

/-! ## `src/middleware/requestLogger.js` -/

/-- `requestLogger(req, res, next)`: `getRequestDetails(req)` is called with one
argument, so `rateLimitConfig` is `undefined` inside `trackRequest`; a throw
there leaves the middleware before `logRequest(logData)` and `next()`.  In the
other branch `logRequest(logData)` is given the details object in place of the
request: `logData.headers` has no `x-forwarded-for` (the header filter drops
it) and `logData.connection` is `undefined`, so the asynchronous call rejects
its promise at line 16 without touching a file, and `next()` is called. -/
def requestLogger (x : Extern) (req : Request) (now timestamp : Int) (s : Stores) : LogResult :=
  let details := getRequestDetails x req none now timestamp s
  match details.outcome with
  | Completion.throw e =>
    { stores := details.stores, status := none, nextCalls := 0, thrown := some e }
  | Completion.normal _ =>
    { stores := details.stores, status := none, nextCalls := 1, thrown := none }

/-- A stand-in for the external packages on which concrete requests are
evaluated: the resolver returns the first of `x-forwarded-for` and the
connection address that is set, the geolocation lookup finds nothing, the
user-agent decoder returns the header text, and an entry counts for one byte. -/
def plainExtern : Extern where
  getClientIp := fun req => (logRequestClientIp req).getD ""
  geoLookup := fun _ => none
  parseUserAgent := fun header => header
  jsonSize := fun logs => logs.length

/-- The rule set of the matching scenario: `[{method: "*", endpoint: "/api/*"}]`. -/
def apiRules : List EndpointRule := [{ method := "*", endpoint := "/api/*" }]

/-- A request without headers and body arriving from `remoteAddress`. -/
def plainRequest (remoteAddress method originalUrl : String) : Request :=
  { headers := [], remoteAddress := some remoteAddress,
    socketRemoteAddress := some remoteAddress, method := method, originalUrl := originalUrl,
    body := "" }

/-- A request without body arriving from `remoteAddress` whose only header is
`user-agent: curl`. -/
def curlRequest (remoteAddress method originalUrl : String) : Request :=
  { headers := [("user-agent", "curl")], remoteAddress := some remoteAddress,
    socketRemoteAddress := some remoteAddress, method := method, originalUrl := originalUrl,
    body := "" }

/-- An entry logged earlier for a `GET /api/old` from `9.9.9.9`. -/
def earlierEntry : LogEntry :=
  { ip := "9.9.9.9", userAgent := "curl", geo := none, timestamp := 10, method := "GET",
    endpoint := "/api/old", body := "", headers := [] }

/-- No file under `logs/` exists yet. -/
def emptyStores : Stores :=
  { blockedIps := none, rateLimit := none, logs := LogFile.missing }

/-! ## Lemmas on the object operations -/

theorem lookupRecord_putRecord (data : RateLimitData) (ip : String) (r : RateRecord) :
    lookupRecord (putRecord data ip r) ip = some r := by
  induction data with
  | nil => simp [putRecord, lookupRecord]
  | cons e rest ih =>
    obtain ⟨k, r0⟩ := e
    by_cases h : k = ip
    · simp [putRecord, lookupRecord, h]
    · simp [putRecord, lookupRecord, h, ih]

theorem lookupRecord_filter_of_keep (p : String × RateRecord → Bool) (data : RateLimitData)
    (ip : String) (r : RateRecord) (h : lookupRecord data ip = some r) (hp : p (ip, r) = true) :
    lookupRecord (data.filter p) ip = some r := by
  induction data with
  | nil => simp [lookupRecord] at h
  | cons e rest ih =>
    obtain ⟨k, r0⟩ := e
    by_cases hk : k = ip
    · subst hk
      simp [lookupRecord] at h
      subst h
      simp [List.filter, hp, lookupRecord]
    · simp [lookupRecord, hk] at h
      by_cases hq : p (k, r0) = true
      · simp [List.filter, hq, lookupRecord, hk, ih h]
      · simp [List.filter, hq, ih h]

theorem lookupRecord_deleteRecord (data : RateLimitData) (ip : String) :
    lookupRecord (deleteRecord data ip) ip = none := by
  induction data with
  | nil => simp [deleteRecord, lookupRecord]
  | cons e rest ih =>
    obtain ⟨k, r0⟩ := e
    unfold deleteRecord at ih ⊢
    by_cases hk : k = ip
    · rw [List.filter_cons_of_neg (by simp [hk])]
      exact ih
    · rw [List.filter_cons_of_pos (by simp [hk])]
      simp [lookupRecord, hk, ih]

theorem isIpBlocked_addIPToBlocklist (ip : String) (s : Stores) :
    isIpBlocked (addIPToBlocklist ip s) ip = true := by
  unfold addIPToBlocklist
  by_cases h : (loadBlockedIps s).contains ip = true
  · simp only [h, Bool.not_true, Bool.false_eq_true, if_false]
    exact h
  · simp only [h, Bool.not_eq_true, Bool.not_false, if_true]
    simp [isIpBlocked, loadBlockedIps, saveBlockedIps]

theorem addIPToBlocklist_of_blocked (ip : String) (s : Stores) (h : isIpBlocked s ip = true) :
    addIPToBlocklist ip s = s := by
  unfold isIpBlocked at h
  unfold addIPToBlocklist
  simp only [h, Bool.not_true, Bool.false_eq_true, if_false]

/-! ## One call of `trackRequest` -/

@[simp] theorem loadRateLimitData_saveRateLimitData (data : RateLimitData) (s : Stores) :
    loadRateLimitData (saveRateLimitData data s) = data := rfl

@[simp] theorem loadBlockedIps_saveRateLimitData (data : RateLimitData) (s : Stores) :
    loadBlockedIps (saveRateLimitData data s) = loadBlockedIps s := rfl

@[simp] theorem isIpBlocked_saveRateLimitData (data : RateLimitData) (s : Stores) (ip : String) :
    isIpBlocked (saveRateLimitData data s) ip = isIpBlocked s ip := rfl

/-- The record of `ip` after lines 80-94 when `ip` had no record: the new one,
provided the window is not negative. -/
theorem lookupRecord_swept_of_absent (data : RateLimitData) (ip : String) (now window : Int)
    (h : lookupRecord data ip = none) (hw : 0 ≤ window) :
    lookupRecord (removeOutdated (bumpRecord data ip now) now window) ip
      = some { count := 1, firstRequest := now } := by
  unfold removeOutdated bumpRecord
  rw [h]
  apply lookupRecord_filter_of_keep
  · exact lookupRecord_putRecord _ _ _
  · simp only [gt_iff_lt, Bool.not_eq_true', decide_eq_false_iff_not, not_lt]
    omega

/-- The record of `ip` after lines 80-94 when `ip` had a record still inside the
window: the same `firstRequest`, `count` one higher. -/
theorem lookupRecord_swept_of_fresh (data : RateLimitData) (ip : String) (now window : Int)
    (r : RateRecord) (h : lookupRecord data ip = some r) (hf : now - r.firstRequest ≤ window) :
    lookupRecord (removeOutdated (bumpRecord data ip now) now window) ip
      = some { count := r.count + 1, firstRequest := r.firstRequest } := by
  unfold removeOutdated bumpRecord
  rw [h]
  apply lookupRecord_filter_of_keep
  · exact lookupRecord_putRecord _ _ _
  · simp only [gt_iff_lt, Bool.not_eq_true', decide_eq_false_iff_not, not_lt]
    exact hf

/-- The result of `trackRequest` once the record read at line 97 is known. -/
theorem trackRequest_of_swept (ip : String) (cfg : RateLimitConfig) (now : Int) (s : Stores)
    (r : RateRecord)
    (h : lookupRecord (removeOutdated (bumpRecord (loadRateLimitData s) ip now) now
          (cfg.window.getD DEFAULT_RATE_LIMIT_WINDOW)) ip = some r) :
    trackRequest ip (some cfg) now s =
      if r.count > cfg.limit.getD DEFAULT_REQUEST_LIMIT then
        { stores := saveRateLimitData
            (deleteRecord (removeOutdated (bumpRecord (loadRateLimitData s) ip now) now
              (cfg.window.getD DEFAULT_RATE_LIMIT_WINDOW)) ip) (addIPToBlocklist ip s),
          thrown := none }
      else
        { stores := saveRateLimitData
            (removeOutdated (bumpRecord (loadRateLimitData s) ip now) now
              (cfg.window.getD DEFAULT_RATE_LIMIT_WINDOW)) s,
          thrown := none } := by
  unfold trackRequest
  simp only [h]

/-- A call that finds the count below the limit: the record is saved, the ban
list is untouched. -/
theorem trackRequest_continue (ip : String) (window limit now : Int) (s : Stores)
    (r : RateRecord)
    (h : lookupRecord (removeOutdated (bumpRecord (loadRateLimitData s) ip now) now window) ip
          = some r)
    (hc : r.count ≤ limit) :
    (trackRequest ip (some { window := some window, limit := some limit }) now s).thrown = none ∧
    lookupRecord (loadRateLimitData
      (trackRequest ip (some { window := some window, limit := some limit }) now s).stores) ip
        = some r ∧
    loadBlockedIps
      (trackRequest ip (some { window := some window, limit := some limit }) now s).stores
        = loadBlockedIps s := by
  rw [trackRequest_of_swept ip { window := some window, limit := some limit } now s r h]
  have hn : ¬ r.count > limit := not_lt.mpr hc
  simp only [Option.getD_some, hn, if_false, loadRateLimitData_saveRateLimitData,
    loadBlockedIps_saveRateLimitData, and_true, true_and]
  exact h

/-- A call that finds the count above the limit: the address is banned and its
record deleted. -/
theorem trackRequest_promote (ip : String) (window limit now : Int) (s : Stores)
    (r : RateRecord)
    (h : lookupRecord (removeOutdated (bumpRecord (loadRateLimitData s) ip now) now window) ip
          = some r)
    (hc : limit < r.count) :
    (trackRequest ip (some { window := some window, limit := some limit }) now s).thrown = none ∧
    lookupRecord (loadRateLimitData
      (trackRequest ip (some { window := some window, limit := some limit }) now s).stores) ip
        = none ∧
    isIpBlocked
      (trackRequest ip (some { window := some window, limit := some limit }) now s).stores ip
        = true := by
  rw [trackRequest_of_swept ip { window := some window, limit := some limit } now s r h]
  have hn : r.count > limit := hc
  simp only [Option.getD_some, hn, if_true, loadRateLimitData_saveRateLimitData,
    isIpBlocked_saveRateLimitData, true_and]
  exact ⟨lookupRecord_deleteRecord _ _, isIpBlocked_addIPToBlocklist _ _⟩

/-- A call that returns normally saves only records inside the window: the
sweep has removed every stale one. -/
theorem trackRequest_saved_records_fresh (ip : String) (cfg : RateLimitConfig) (now : Int)
    (s : Stores) (hok : (trackRequest ip (some cfg) now s).thrown = none) :
    ∀ e ∈ loadRateLimitData (trackRequest ip (some cfg) now s).stores,
      now - e.2.firstRequest ≤ cfg.window.getD DEFAULT_RATE_LIMIT_WINDOW := by
  have hswept : ∀ e ∈ removeOutdated (bumpRecord (loadRateLimitData s) ip now) now
      (cfg.window.getD DEFAULT_RATE_LIMIT_WINDOW),
      now - e.2.firstRequest ≤ cfg.window.getD DEFAULT_RATE_LIMIT_WINDOW := by
    intro e he
    unfold removeOutdated at he
    have := (List.mem_filter.mp he).2
    simpa using this
  cases hrec : lookupRecord (removeOutdated (bumpRecord (loadRateLimitData s) ip now) now
      (cfg.window.getD DEFAULT_RATE_LIMIT_WINDOW)) ip with
  | none =>
    unfold trackRequest at hok
    simp only [hrec] at hok
    cases hok
  | some r =>
    rw [trackRequest_of_swept ip cfg now s r hrec]
    by_cases hc : r.count > cfg.limit.getD DEFAULT_REQUEST_LIMIT
    · rw [if_pos hc]
      intro e he
      rw [loadRateLimitData_saveRateLimitData] at he
      unfold deleteRecord at he
      exact hswept e (List.mem_filter.mp he).1
    · rw [if_neg hc]
      intro e he
      rw [loadRateLimitData_saveRateLimitData] at he
      exact hswept e he

/-! ## Runs of `trackRequest` -/

theorem trackRun_cons_of_ok (ip : String) (cfg : Option RateLimitConfig) (now : Int)
    (times : List Int) (s : Stores) (h : (trackRequest ip cfg now s).thrown = none) :
    trackRun ip cfg (now :: times) s = trackRun ip cfg times (trackRequest ip cfg now s).stores := by
  simp [trackRun, h]

/-- A run that starts from a record `{count: c, firstRequest: t1}` with every
clock reading inside the window: the count grows by one per call while it stays
at most `L`, and the call that makes it `L + 1` bans the address. -/
theorem trackRun_of_fresh (ip : String) (window : Int) (L : Nat) (t1 : Int) :
    ∀ (times : List Int) (s : Stores) (c : Int),
      lookupRecord (loadRateLimitData s) ip = some { count := c, firstRequest := t1 } →
      isIpBlocked s ip = false →
      (∀ t ∈ times, t - t1 ≤ window) →
      c ≤ L →
      (c + times.length ≤ L →
        (trackRun ip (some { window := some window, limit := some (L : Int) }) times s).thrown
          = none ∧
        lookupRecord (loadRateLimitData
          (trackRun ip (some { window := some window, limit := some (L : Int) }) times s).stores)
          ip = some { count := c + times.length, firstRequest := t1 } ∧
        isIpBlocked
          (trackRun ip (some { window := some window, limit := some (L : Int) }) times s).stores
          ip = false) ∧
      (c + times.length = L + 1 →
        (trackRun ip (some { window := some window, limit := some (L : Int) }) times s).thrown
          = none ∧
        lookupRecord (loadRateLimitData
          (trackRun ip (some { window := some window, limit := some (L : Int) }) times s).stores)
          ip = none ∧
        isIpBlocked
          (trackRun ip (some { window := some window, limit := some (L : Int) }) times s).stores
          ip = true) := by
  intro times
  induction times with
  | nil =>
    intro s c hrec hban _ hc
    refine ⟨fun _ => ?_, fun h => ?_⟩
    · simp [trackRun, hrec, hban]
    · simp at h
      omega
  | cons t ts ih =>
    intro s c hrec hban hwin hc
    have hswept := lookupRecord_swept_of_fresh (loadRateLimitData s) ip t window
      { count := c, firstRequest := t1 } hrec (hwin t (List.mem_cons_self t ts))
    by_cases hlt : c + 1 ≤ (L : Int)
    · obtain ⟨h1, h2, h3⟩ := trackRequest_continue ip window L t s _ hswept hlt
      rw [trackRun_cons_of_ok ip _ t ts s h1]
      have hban1 : isIpBlocked
          (trackRequest ip (some { window := some window, limit := some (L : Int) }) t s).stores
          ip = false := by
        unfold isIpBlocked at hban ⊢
        rw [h3]
        exact hban
      have hih := ih _ (c + 1) h2 hban1
        (fun u hu => hwin u (List.mem_cons_of_mem t hu)) hlt
      refine ⟨fun h => ?_, fun h => ?_⟩
      · have h4 := hih.1 (by simp only [List.length_cons, Nat.cast_add, Nat.cast_one] at h; omega)
        have he : c + 1 + (ts.length : Int) = c + ((t :: ts).length : Int) := by
          simp only [List.length_cons, Nat.cast_add, Nat.cast_one]
          ring
        rw [he] at h4
        exact h4
      · exact hih.2 (by simp only [List.length_cons, Nat.cast_add, Nat.cast_one] at h; omega)
    · have hcL : c = (L : Int) := by omega
      refine ⟨fun h => ?_, fun h => ?_⟩
      · simp only [List.length_cons, Nat.cast_add, Nat.cast_one] at h
        omega
      · have hts : ts = [] := by
          simp only [List.length_cons, Nat.cast_add, Nat.cast_one] at h
          have : ts.length = 0 := by omega
          exact List.length_eq_zero.mp this
        subst hts
        obtain ⟨h1, h2, h3⟩ := trackRequest_promote ip window L t s _ hswept
          (by show (L : Int) < c + 1; omega)
        rw [trackRun_cons_of_ok ip _ t [] s h1]
        exact ⟨rfl, h2, h3⟩

/-! ## The endpoint matcher on literal patterns -/

theorem not_star_of_not_syntaxCharacter (c : Char) (h : isSyntaxCharacter c = false) :
    c ≠ '*' := by
  intro hc
  subst hc
  exact absurd h (by decide)

theorem parseAtom_of_not_syntaxCharacter (c : Char) (h : isSyntaxCharacter c = false) :
    parseAtom c = Completion.normal (RegExpAtom.char c) := by
  have h1 : c ≠ '.' := by
    intro hc
    subst hc
    exact absurd h (by decide)
  have h2 : c ≠ '*' := not_star_of_not_syntaxCharacter c h
  simp [parseAtom, h1, h2, h]

theorem replaceFirstStar_append_of_literal (cs tail : List Char)
    (h : ∀ c ∈ cs, isSyntaxCharacter c = false) :
    replaceFirstStar (cs ++ tail) = cs ++ replaceFirstStar tail := by
  induction cs with
  | nil => rfl
  | cons c cs ih =>
    have hc : c ≠ '*' := not_star_of_not_syntaxCharacter c (h c (List.mem_cons_self c cs))
    have ih1 := ih (fun d hd => h d (List.mem_cons_of_mem c hd))
    show replaceFirstStar (c :: (cs ++ tail)) = c :: (cs ++ replaceFirstStar tail)
    rw [replaceFirstStar, if_neg hc, ih1]

/-- Parsing a run of pattern characters followed by text that does not start
with `*`. -/
theorem parseRegExp_literal_append (cs tail : List Char) (ts : List RegExpTerm)
    (h : ∀ c ∈ cs, isSyntaxCharacter c = false)
    (htail : ∀ d rest, tail = d :: rest → d ≠ '*')
    (hparse : parseRegExp tail = Completion.normal ts) :
    parseRegExp (cs ++ tail) = Completion.normal (literalTerms cs ++ ts) := by
  induction cs with
  | nil => simpa [literalTerms] using hparse
  | cons c cs ih =>
    have hc := parseAtom_of_not_syntaxCharacter c (h c (List.mem_cons_self c cs))
    have ih1 := ih (fun d hd => h d (List.mem_cons_of_mem c hd))
    cases hrest : cs ++ tail with
    | nil =>
      rw [hrest] at ih1
      simp only [parseRegExp] at ih1
      have hts : [] = literalTerms cs ++ ts := by
        injection ih1
      simp only [List.cons_append, hrest, parseRegExp, hc, literalTerms, List.map_cons]
      rw [hts]
      rfl
    | cons d rest =>
      have hd : d ≠ '*' := by
        cases cs with
        | nil =>
          simp only [List.nil_append] at hrest
          exact htail d rest hrest
        | cons e es =>
          simp only [List.cons_append, List.cons.injEq] at hrest
          rw [← hrest.1]
          exact not_star_of_not_syntaxCharacter e
            (h e (List.mem_cons_of_mem c (List.mem_cons_self e es)))
      rw [hrest] at ih1
      simp only [List.cons_append, hrest, parseRegExp, hc, hd, if_false, ih1, literalTerms,
        List.map_cons]

theorem starLoop_of_always (a : RegExpAtom) (k : List Char → Bool) (hk : ∀ i, k i = true)
    (input : List Char) : starLoop a k input = true := by
  cases input with
  | nil => simp [starLoop, hk]
  | cons c rest => simp [starLoop, hk]

theorem matchHere_dotStar (input : List Char) :
    matchHere [{ atom := RegExpAtom.dot, star := true }] input = true := by
  simp only [matchHere, if_true]
  exact starLoop_of_always _ _ (fun i => by simp [matchHere]) input

/-- Literal terms followed by terms that match everything match exactly the
inputs that start with the literal text. -/
theorem matchHere_literalTerms (cs : List Char) (ts : List RegExpTerm)
    (hts : ∀ i, matchHere ts i = true) (input : List Char) :
    matchHere (literalTerms cs ++ ts) input = true ↔ cs <+: input := by
  induction cs generalizing input with
  | nil => simp [literalTerms, hts]
  | cons c cs ih =>
    cases input with
    | nil => simp [literalTerms, matchHere]
    | cons d rest =>
      have ih1 := ih rest
      simp only [literalTerms] at ih1
      show matchHere ({ atom := RegExpAtom.char c, star := false } ::
        (List.map (fun c => { atom := RegExpAtom.char c, star := false }) cs ++ ts)) (d :: rest)
          = true ↔ c :: cs <+: d :: rest
      rw [List.cons_prefix_cons, ← ih1]
      simp only [matchHere, Bool.false_eq_true, if_false, RegExpAtom.accepts, Bool.and_eq_true,
        beq_iff_eq]

/-- An unanchored test: when the terms match exactly the inputs that start
with `cs`, `test` accepts exactly the inputs that contain `cs`. -/
theorem regExpTest_iff_contains (re : List RegExpTerm) (cs : List Char)
    (hre : ∀ i, matchHere re i = true ↔ cs <+: i) (input : List Char) :
    regExpTest re input = true ↔ cs <:+: input := by
  induction input with
  | nil =>
    simp only [regExpTest, hre]
    constructor
    · exact fun h => h.isInfix
    · intro h
      have : cs = [] := List.eq_nil_of_infix_nil h
      rw [this]
  | cons c rest ih =>
    rw [regExpTest, Bool.or_eq_true, hre, ih]
    exact List.infix_cons_iff.symm

theorem literal_of_isLiteralPattern (p : String) (h : isLiteralPattern p = true) :
    ∀ c ∈ p.data, isSyntaxCharacter c = false := by
  intro c hc
  unfold isLiteralPattern at h
  have := List.all_eq_true.mp h c hc
  simpa using this

/-- A pattern of pattern characters only: `matchEndpoint` returns whether the
pattern occurs in the URL as a contiguous substring. -/
theorem matchEndpoint_of_literal (u p : String) (h : isLiteralPattern p = true) :
    matchEndpoint u p = Completion.normal (decide (p.data <:+: u.data)) := by
  have hl := literal_of_isLiteralPattern p h
  have hrep : replaceFirstStar p.data = p.data := by
    have := replaceFirstStar_append_of_literal p.data [] hl
    simpa [replaceFirstStar] using this
  have hparse : parseRegExp p.data = Completion.normal (literalTerms p.data) := by
    have := parseRegExp_literal_append p.data [] [] hl (fun d rest hd => by cases hd) rfl
    simpa using this
  have hiff := regExpTest_iff_contains (literalTerms p.data) p.data
    (fun i => by
      have := matchHere_literalTerms p.data [] (fun j => by simp [matchHere]) i
      simpa using this) u.data
  unfold matchEndpoint
  rw [hrep, hparse]
  show Completion.normal (regExpTest (literalTerms p.data) u.data) = _
  congr 1
  rw [Bool.eq_iff_iff, hiff]
  simp

/-- A pattern `P*` with `P` of pattern characters only: `matchEndpoint` returns
whether `P` occurs in the URL as a contiguous substring. -/
theorem matchEndpoint_of_literal_star (u P : String) (h : isLiteralPattern P = true) :
    matchEndpoint u (P ++ "*") = Completion.normal (decide (P.data <:+: u.data)) := by
  have hl := literal_of_isLiteralPattern P h
  have hdata : (P ++ "*").data = P.data ++ ['*'] := by
    rw [String.data_append]
  have hrep : replaceFirstStar (P.data ++ ['*']) = P.data ++ ['.', '*'] := by
    rw [replaceFirstStar_append_of_literal P.data ['*'] hl]
    rfl
  have hparse : parseRegExp (P.data ++ ['.', '*'])
      = Completion.normal (literalTerms P.data ++ [{ atom := RegExpAtom.dot, star := true }]) :=
    parseRegExp_literal_append P.data ['.', '*'] _ hl
      (fun d rest hd => by
        simp only [List.cons.injEq] at hd
        rw [← hd.1]
        decide) rfl
  have hiff := regExpTest_iff_contains
    (literalTerms P.data ++ [{ atom := RegExpAtom.dot, star := true }]) P.data
    (fun i => matchHere_literalTerms P.data _ matchHere_dotStar i) u.data
  unfold matchEndpoint
  rw [hdata, hrep, hparse]
  show Completion.normal (regExpTest _ u.data) = _
  congr 1
  rw [Bool.eq_iff_iff, hiff]
  simp

/-! ## The paths through `logRequest` -/

theorem logRequest_of_blocked (x : Extern) (req : Request) (options : Options)
    (now timestamp : Int) (s : Stores)
    (hb : isClientBlocked s (logRequestClientIp req) = true) :
    logRequest x req options now timestamp s
      = { stores := s, status := some 403, nextCalls := 0, thrown := none } := by
  simp only [logRequest, hb, if_true]

theorem logRequest_of_unmatched (x : Extern) (req : Request) (options : Options)
    (now timestamp : Int) (s : Stores)
    (hnb : isClientBlocked s (logRequestClientIp req) = false)
    (hm : shouldLog req.method req.originalUrl options.saveEndpointsOrDefault
      = Completion.normal false) :
    logRequest x req options now timestamp s
      = { stores := s, status := none, nextCalls := 1, thrown := none } := by
  simp only [logRequest, hnb, hm, Bool.false_eq_true, if_false]

theorem logRequest_of_tracked (x : Extern) (req : Request) (options : Options)
    (now timestamp : Int) (s : Stores) (header : String)
    (hnb : isClientBlocked s (logRequestClientIp req) = false)
    (hm : shouldLog req.method req.originalUrl options.saveEndpointsOrDefault
      = Completion.normal true)
    (hok : (trackRequest (x.getClientIp req) (some options.rateLimitConfigOrDefault) now s).thrown
      = none)
    (hua : headerLookup req.headers "user-agent" = some header) :
    logRequest x req options now timestamp s
      = { stores := saveLogs x
            (loadLogs (checkFileSizeAndClear options.maxSizeOrDefault
                (trackRequest (x.getClientIp req) (some options.rateLimitConfigOrDefault) now
                  s).stores)
              ++ [requestDetails x req timestamp (x.parseUserAgent header)])
            (checkFileSizeAndClear options.maxSizeOrDefault
              (trackRequest (x.getClientIp req) (some options.rateLimitConfigOrDefault) now
                s).stores),
          status := none, nextCalls := 1, thrown := none } := by
  simp only [logRequest, hnb, hm, Bool.false_eq_true, if_false, getRequestDetails, hok, hua]

/-- A matched request without `user-agent` header: `trackRequest` has saved its
files, then line 112 throws; nothing is logged and `next()` is not called. -/
theorem logRequest_of_missing_user_agent (x : Extern) (req : Request) (options : Options)
    (now timestamp : Int) (s : Stores)
    (hnb : isClientBlocked s (logRequestClientIp req) = false)
    (hm : shouldLog req.method req.originalUrl options.saveEndpointsOrDefault
      = Completion.normal true)
    (hok : (trackRequest (x.getClientIp req) (some options.rateLimitConfigOrDefault) now s).thrown
      = none)
    (hua : headerLookup req.headers "user-agent" = none) :
    logRequest x req options now timestamp s
      = { stores := (trackRequest (x.getClientIp req) (some options.rateLimitConfigOrDefault)
            now s).stores,
          status := none, nextCalls := 0, thrown := some JsError.typeError } := by
  simp only [logRequest, hnb, hm, Bool.false_eq_true, if_false, getRequestDetails, hok, hua]

theorem logRequest_of_track_throw (x : Extern) (req : Request) (options : Options)
    (now timestamp : Int) (s : Stores) (e : JsError)
    (hnb : isClientBlocked s (logRequestClientIp req) = false)
    (hm : shouldLog req.method req.originalUrl options.saveEndpointsOrDefault
      = Completion.normal true)
    (hthrow : (trackRequest (x.getClientIp req) (some options.rateLimitConfigOrDefault) now
      s).thrown = some e) :
    logRequest x req options now timestamp s
      = { stores := (trackRequest (x.getClientIp req) (some options.rateLimitConfigOrDefault)
            now s).stores,
          status := none, nextCalls := 0, thrown := some e } := by
  simp only [logRequest, hnb, hm, Bool.false_eq_true, if_false, getRequestDetails, hthrow]

theorem loadBlockedIps_checkFileSizeAndClear (maxSize : Int) (s : Stores) :
    loadBlockedIps (checkFileSizeAndClear maxSize s) = loadBlockedIps s := by
  unfold checkFileSizeAndClear
  split
  · rfl
  · split <;> rfl

theorem loadRateLimitData_checkFileSizeAndClear (maxSize : Int) (s : Stores) :
    loadRateLimitData (checkFileSizeAndClear maxSize s) = loadRateLimitData s := by
  unfold checkFileSizeAndClear
  split
  · rfl
  · split <;> rfl

@[simp] theorem loadBlockedIps_saveLogs (x : Extern) (logs : List LogEntry) (s : Stores) :
    loadBlockedIps (saveLogs x logs s) = loadBlockedIps s := rfl

@[simp] theorem loadRateLimitData_saveLogs (x : Extern) (logs : List LogEntry) (s : Stores) :
    loadRateLimitData (saveLogs x logs s) = loadRateLimitData s := rfl

@[simp] theorem loadLogs_saveLogs (x : Extern) (logs : List LogEntry) (s : Stores) :
    loadLogs (saveLogs x logs s) = logs := rfl

theorem addIPToBlocklist_logs (ip : String) (s : Stores) :
    (addIPToBlocklist ip s).logs = s.logs := by
  unfold addIPToBlocklist
  by_cases h : (!(loadBlockedIps s).contains ip) = true
  · simp only [h, if_true]
    rfl
  · simp only [h, Bool.false_eq_true, if_false]

/-- `trackRequest` never touches `requests.json`. -/
theorem trackRequest_logs (ip : String) (cfg : Option RateLimitConfig) (now : Int) (s : Stores) :
    (trackRequest ip cfg now s).stores.logs = s.logs := by
  cases cfg with
  | none => rfl
  | some c =>
    cases hrec : lookupRecord (removeOutdated (bumpRecord (loadRateLimitData s) ip now) now
        (c.window.getD DEFAULT_RATE_LIMIT_WINDOW)) ip with
    | none =>
      unfold trackRequest
      simp only [hrec]
    | some r =>
      rw [trackRequest_of_swept ip c now s r hrec]
      by_cases hc : r.count > c.limit.getD DEFAULT_REQUEST_LIMIT
      · rw [if_pos hc]
        exact addIPToBlocklist_logs ip s
      · rw [if_neg hc]
        rfl

theorem loadLogs_checkFileSizeAndClear_congr (maxSize : Int) (s1 s2 : Stores)
    (h : s1.logs = s2.logs) :
    loadLogs (checkFileSizeAndClear maxSize s1) = loadLogs (checkFileSizeAndClear maxSize s2) := by
  unfold checkFileSizeAndClear
  rw [h]
  split
  · unfold loadLogs
    rw [h]
  · split
    · rfl
    · unfold loadLogs
      rw [h]

/-! ## Claims on the rate-limit engine and the ban list -/

/-- C1. For an address `a` that is neither banned nor tracked, a limit `L` and a
window `w`, a run of `L + 1` calls `trackRequest(a, {window: w, limit: L})`
whose clock readings all lie within `w` of the first one: after the `k`-th call
(`1 ≤ k ≤ L`) no call has thrown, the rate store holds for `a` the record with
`count = k` and `firstRequest` the time of the first call, and `a` is not
banned; after the `(L+1)`-th call `a` is banned and has no record. -/
theorem trackRequest_counts_then_promotes (s : Stores) (a : String) (w : Int) (L : Nat)
    (t1 : Int) (rest : List Int)
    (hban : isIpBlocked s a = false)
    (htracked : lookupRecord (loadRateLimitData s) a = none)
    (hlen : rest.length = L)
    (hwin : ∀ t ∈ t1 :: rest, t - t1 ≤ w) :
    (∀ k : Nat, 1 ≤ k → k ≤ L →
      (trackRun a (some { window := some w, limit := some (L : Int) })
        ((t1 :: rest).take k) s).thrown = none ∧
      lookupRecord (loadRateLimitData
        (trackRun a (some { window := some w, limit := some (L : Int) })
          ((t1 :: rest).take k) s).stores) a
        = some { count := (k : Int), firstRequest := t1 } ∧
      isIpBlocked
        (trackRun a (some { window := some w, limit := some (L : Int) })
          ((t1 :: rest).take k) s).stores a = false) ∧
    ((trackRun a (some { window := some w, limit := some (L : Int) }) (t1 :: rest) s).thrown
        = none ∧
      isIpBlocked
        (trackRun a (some { window := some w, limit := some (L : Int) }) (t1 :: rest) s).stores a
        = true ∧
      lookupRecord (loadRateLimitData
        (trackRun a (some { window := some w, limit := some (L : Int) }) (t1 :: rest) s).stores) a
        = none) := by
  have hw : 0 ≤ w := by
    have := hwin t1 (List.mem_cons_self t1 rest)
    omega
  have hswept := lookupRecord_swept_of_absent (loadRateLimitData s) a t1 w htracked hw
  have hrest : ∀ t ∈ rest, t - t1 ≤ w := fun t ht => hwin t (List.mem_cons_of_mem t1 ht)
  by_cases hL : 1 ≤ L
  · obtain ⟨h1, h2, h3⟩ := trackRequest_continue a w L t1 s _ hswept
      (by show (1 : Int) ≤ (L : Int); omega)
    have hban1 : isIpBlocked
        (trackRequest a (some { window := some w, limit := some (L : Int) }) t1 s).stores a
        = false := by
      unfold isIpBlocked at hban ⊢
      rw [h3]
      exact hban
    refine ⟨fun k hk1 hkL => ?_, ?_⟩
    · obtain ⟨j, rfl⟩ : ∃ j, k = j + 1 := ⟨k - 1, by omega⟩
      rw [List.take_succ_cons, trackRun_cons_of_ok a _ t1 _ s h1]
      have hlenj : (rest.take j).length = j := by
        rw [List.length_take]
        omega
      have hrun := (trackRun_of_fresh a w L t1 (rest.take j) _ 1 h2 hban1
        (fun t ht => hrest t (List.mem_of_mem_take ht)) (by omega)).1
        (by rw [hlenj]; omega)
      rw [hlenj] at hrun
      have he : (1 : Int) + (j : Int) = ((j + 1 : Nat) : Int) := by
        push_cast
        ring
      rw [he] at hrun
      exact hrun
    · rw [trackRun_cons_of_ok a _ t1 _ s h1]
      obtain ⟨g1, g2, g3⟩ := (trackRun_of_fresh a w L t1 rest _ 1 h2 hban1 hrest (by omega)).2
        (by rw [hlen]; ring)
      exact ⟨g1, g3, g2⟩
  · have hL0 : L = 0 := by omega
    subst hL0
    have hnil : rest = [] := List.length_eq_zero.mp hlen
    subst hnil
    refine ⟨fun k hk1 hkL => absurd hk1 (by omega), ?_⟩
    obtain ⟨h1, h2, h3⟩ := trackRequest_promote a w ((0 : Nat) : Int) t1 s _ hswept
      (by show ((0 : Nat) : Int) < 1; decide)
    rw [trackRun_cons_of_ok a _ t1 [] s h1]
    exact ⟨rfl, h3, h2⟩

/-- C1, the scenario of the specification: window 1000, limit 3, four calls for
`1.2.3.4` at times 0, 100, 200, 300 on empty stores. -/
theorem trackRequest_counts_then_promotes_witness :
    (isIpBlocked { blockedIps := none, rateLimit := none, logs := LogFile.missing } "1.2.3.4"
        = false ∧
      lookupRecord (loadRateLimitData
        { blockedIps := none, rateLimit := none, logs := LogFile.missing }) "1.2.3.4" = none ∧
      [(100 : Int), 200, 300].length = 3) ∧
    lookupRecord (loadRateLimitData
      (trackRun "1.2.3.4" (some { window := some 1000, limit := some ((3 : Nat) : Int) })
        (((0 : Int) :: [100, 200, 300]).take 3)
        { blockedIps := none, rateLimit := none, logs := LogFile.missing }).stores) "1.2.3.4"
      = some { count := ((3 : Nat) : Int), firstRequest := 0 } ∧
    isIpBlocked
      (trackRun "1.2.3.4" (some { window := some 1000, limit := some ((3 : Nat) : Int) })
        ((0 : Int) :: [100, 200, 300])
        { blockedIps := none, rateLimit := none, logs := LogFile.missing }).stores "1.2.3.4"
      = true :=
  have h := trackRequest_counts_then_promotes
    { blockedIps := none, rateLimit := none, logs := LogFile.missing } "1.2.3.4" 1000 3 0
    [100, 200, 300] rfl rfl rfl (by decide)
  ⟨⟨rfl, rfl, rfl⟩, (h.1 3 (by decide) (by decide)).2.1, h.2.2.1⟩

/-- C2. A stale record of the current address is not re-initialised: with the
record `{count: 1, firstRequest: 0}` for `1.2.3.4`, window 1000 and clock 5000,
`trackRequest` throws a `TypeError` at the read of `rateLimitData[ip].count`
and writes nothing, so the stale record stays in the file. -/
theorem trackRequest_stale_current_address_throws :
    trackRequest "1.2.3.4" (some { window := some 1000, limit := some 3 }) 5000
      { blockedIps := some [],
        rateLimit := some [("1.2.3.4", { count := 1, firstRequest := 0 })],
        logs := LogFile.missing }
    = { stores :=
          { blockedIps := some [],
            rateLimit := some [("1.2.3.4", { count := 1, firstRequest := 0 })],
            logs := LogFile.missing },
        thrown := some JsError.typeError } := by
  decide

/-- C3. A stale record survives a call for a stale address: with window 1000
and clock 5000, the record `{count: 7, firstRequest: 0}` of `1.2.3.4` is still
in the file after `trackRequest("1.2.3.4", ..)`, and also after
`trackRequest("9.9.9.9", ..)` when `9.9.9.9` has a stale record of its own;
both calls throw before the save. -/
theorem trackRequest_stale_record_survives :
    lookupRecord (loadRateLimitData
      (trackRequest "1.2.3.4" (some { window := some 1000, limit := some 3 }) 5000
        { blockedIps := some [],
          rateLimit := some [("1.2.3.4", { count := 7, firstRequest := 0 })],
          logs := LogFile.missing }).stores) "1.2.3.4"
      = some { count := 7, firstRequest := 0 } ∧
    lookupRecord (loadRateLimitData
      (trackRequest "9.9.9.9" (some { window := some 1000, limit := some 3 }) 5000
        { blockedIps := some [],
          rateLimit := some [("1.2.3.4", { count := 7, firstRequest := 0 }),
                             ("9.9.9.9", { count := 2, firstRequest := 10 })],
          logs := LogFile.missing }).stores) "1.2.3.4"
      = some { count := 7, firstRequest := 0 } ∧
    (trackRequest "9.9.9.9" (some { window := some 1000, limit := some 3 }) 5000
        { blockedIps := some [],
          rateLimit := some [("1.2.3.4", { count := 7, firstRequest := 0 }),
                             ("9.9.9.9", { count := 2, firstRequest := 10 })],
          logs := LogFile.missing }).thrown = some JsError.typeError := by
  decide

/-! ## Claims on the endpoint matcher and on `logRequest` -/

/-- C4, as stated, fails: with `saveEndpoints = [{method: "*", endpoint:
"/api/*"}]` the logging decision for a request to `/other/api/x` is `true`,
because the regular expression `/api/.*` is tested without anchors. -/
theorem shouldLog_other_api_is_true :
    shouldLog "GET" "/other/api/x" apiRules = Completion.normal true := by
  decide

/-- C4, amended. With `saveEndpoints = [{method: "*", endpoint: "/api/*"}]` the
logging decision is `true` for `GET /api/users` and for `POST /api/orders/5`; in
general, for `P` free of regular-expression syntax characters, the pattern
`P + "*"` matches exactly the URLs that contain `P` as a contiguous substring. -/
theorem shouldLog_star_pattern_matches_containing (P u : String)
    (hP : isLiteralPattern P = true) :
    shouldLog "GET" "/api/users" apiRules = Completion.normal true ∧
    shouldLog "POST" "/api/orders/5" apiRules = Completion.normal true ∧
    matchEndpoint u (P ++ "*") = Completion.normal (decide (P.data <:+: u.data)) :=
  ⟨by decide, by decide, matchEndpoint_of_literal_star u P hP⟩

/-- C4, amended, at `P = "/api/"` and the URL `/other/api/x`. -/
theorem shouldLog_star_pattern_matches_containing_witness :
    isLiteralPattern "/api/" = true ∧
    matchEndpoint "/other/api/x" ("/api/" ++ "*")
      = Completion.normal (decide ("/api/".data <:+: "/other/api/x".data)) :=
  ⟨by decide, (shouldLog_star_pattern_matches_containing "/api/" "/other/api/x" (by decide)).2.2⟩

/-- C5, as stated, fails: the pattern `/api` has no `*` and matches the URL
`/api/users`, which only contains it; the pattern `/v1.0` has no `*` and
matches `/v1x0`, which differs from it at the `.`. -/
theorem matchEndpoint_without_star_is_not_exact :
    ('*' ∉ "/api".data ∧ matchEndpoint "/api/users" "/api" = Completion.normal true ∧
      "/api/users" ≠ "/api") ∧
    ('*' ∉ "/v1.0".data ∧ matchEndpoint "/v1x0" "/v1.0" = Completion.normal true ∧
      "/v1x0" ≠ "/v1.0") := by
  decide

/-- C5, amended. For every pattern `p` free of regular-expression syntax
characters (so without `*`) and every URL `u`, `matchEndpoint(u, p)` is `true`
if and only if `p` occurs in `u` as a contiguous substring; in particular
`u = p` matches. -/
theorem matchEndpoint_literal_iff_contains (u p : String) (hp : isLiteralPattern p = true) :
    (matchEndpoint u p = Completion.normal true ↔ p.data <:+: u.data) ∧
    (matchEndpoint u p = Completion.normal true ∨
      matchEndpoint u p = Completion.normal false) ∧
    matchEndpoint p p = Completion.normal true := by
  have hu := matchEndpoint_of_literal u p hp
  have hpp := matchEndpoint_of_literal p p hp
  refine ⟨?_, ?_, ?_⟩
  · rw [hu]
    constructor
    · intro h
      injection h with h1
      exact of_decide_eq_true h1
    · intro h
      rw [decide_eq_true h]
  · rw [hu]
    cases decide (p.data <:+: u.data)
    · exact Or.inr rfl
    · exact Or.inl rfl
  · rw [hpp, decide_eq_true (List.infix_refl p.data)]

/-- C5, amended, at the pattern `/api` and the URL `/api/users`. -/
theorem matchEndpoint_literal_iff_contains_witness :
    isLiteralPattern "/api" = true ∧
    (matchEndpoint "/api/users" "/api" = Completion.normal true
      ↔ "/api".data <:+: "/api/users".data) :=
  ⟨by decide, (matchEndpoint_literal_iff_contains "/api/users" "/api" (by decide)).1⟩

/-- C6. A request from an address that is not banned is not counted when no
`saveEndpoints` rule matches: a `GET /api/users` from the unbanned address
`1.2.3.4` handled with empty `saveEndpoints` (the default) is forwarded by the
`return next()` of line 26, before `getRequestDetails`, the only caller of
`trackRequest`; afterwards the files are untouched and the rate store has no
record for `1.2.3.4`. -/
theorem logRequest_unmatched_request_is_not_counted :
    isClientBlocked emptyStores (logRequestClientIp (plainRequest "1.2.3.4" "GET" "/api/users"))
      = false ∧
    (logRequest plainExtern (plainRequest "1.2.3.4" "GET" "/api/users")
      { saveEndpoints := some [], maxSize := none, rateLimitConfig := none } 5000 5000
      emptyStores).stores = emptyStores ∧
    lookupRecord (loadRateLimitData
      (logRequest plainExtern (plainRequest "1.2.3.4" "GET" "/api/users")
        { saveEndpoints := some [], maxSize := none, rateLimitConfig := none } 5000 5000
        emptyStores).stores) "1.2.3.4" = none ∧
    (logRequest plainExtern (plainRequest "1.2.3.4" "GET" "/api/users")
      { saveEndpoints := some [], maxSize := none, rateLimitConfig := none } 5000 5000
      emptyStores).nextCalls = 1 := by
  decide

/-- C7. A request is left neither rejected nor forwarded: with the stale record
`{count: 1, firstRequest: 0}` for `1.2.3.4`, window 1000 and clock 5000, a
matched `GET /api/users` from `1.2.3.4` makes `trackRequest` throw inside
`logRequest`; the promise is rejected with a `TypeError`, no 403 is sent and
`next()` is not called. -/
theorem logRequest_stale_record_rejects_promise :
    logRequest plainExtern (plainRequest "1.2.3.4" "GET" "/api/users")
      { saveEndpoints := some apiRules, maxSize := none,
        rateLimitConfig := some { window := some 1000, limit := some 3 } } 5000 5000
      { blockedIps := some [],
        rateLimit := some [("1.2.3.4", { count := 1, firstRequest := 0 })],
        logs := LogFile.missing }
    = { stores :=
          { blockedIps := some [],
            rateLimit := some [("1.2.3.4", { count := 1, firstRequest := 0 })],
            logs := LogFile.missing },
        status := none, nextCalls := 0, thrown := some JsError.typeError } := by
  decide

/-- C8. For every request whose address (line 16 of `logRequest`) is in the ban
list, `logRequest` answers 403 and stops: `next()` is not called, nothing is
thrown, and the three files are exactly as before. -/
theorem logRequest_banned_address_is_rejected (x : Extern) (req : Request) (options : Options)
    (now timestamp : Int) (s : Stores) (a : String)
    (haddr : logRequestClientIp req = some a) (hban : isIpBlocked s a = true) :
    logRequest x req options now timestamp s
      = { stores := s, status := some 403, nextCalls := 0, thrown := none } := by
  apply logRequest_of_blocked
  rw [haddr]
  exact hban

/-- C8 for a matched `GET /api/users` from the banned address `1.2.3.4`. -/
theorem logRequest_banned_address_is_rejected_witness :
    (logRequestClientIp (plainRequest "1.2.3.4" "GET" "/api/users") = some "1.2.3.4" ∧
      isIpBlocked { blockedIps := some ["1.2.3.4"], rateLimit := none, logs := LogFile.missing }
        "1.2.3.4" = true) ∧
    logRequest plainExtern (plainRequest "1.2.3.4" "GET" "/api/users")
      { saveEndpoints := some apiRules, maxSize := none, rateLimitConfig := none } 5000 5000
      { blockedIps := some ["1.2.3.4"], rateLimit := none, logs := LogFile.missing }
    = { stores := { blockedIps := some ["1.2.3.4"], rateLimit := none, logs := LogFile.missing },
        status := some 403, nextCalls := 0, thrown := none } :=
  ⟨⟨by decide, by decide⟩,
    logRequest_banned_address_is_rejected plainExtern (plainRequest "1.2.3.4" "GET" "/api/users")
      { saveEndpoints := some apiRules, maxSize := none, rateLimitConfig := none } 5000 5000
      { blockedIps := some ["1.2.3.4"], rateLimit := none, logs := LogFile.missing } "1.2.3.4"
      (by decide) (by decide)⟩

/-- C9. A promoting request is left neither logged nor forwarded when it has no
`user-agent` header: with limit 0 on empty files, a matched `GET /api/users`
from `1.2.3.4` without headers is counted and promoted by `trackRequest`
(`1.2.3.4` is banned, its record deleted), then `useragent.parse(undefined)`
throws at line 112 of `geoIP.js`, outside the `try` of `logRequest`: the
promise is rejected with a `TypeError`, no entry is appended and `next()` is
not called. -/
theorem logRequest_promotion_without_user_agent_is_dropped :
    logRequest plainExtern (plainRequest "1.2.3.4" "GET" "/api/users")
      { saveEndpoints := some apiRules, maxSize := none,
        rateLimitConfig := some { window := some 1000, limit := some 0 } } 5000 5000
      emptyStores
    = { stores := { blockedIps := some ["1.2.3.4"], rateLimit := some [],
                    logs := LogFile.missing },
        status := none, nextCalls := 0, thrown := some JsError.typeError } := by
  decide

/-- C10. `addIPToBlocklist` is idempotent: the files after
`addIPToBlocklist(a); addIPToBlocklist(a)` are those after one
`addIPToBlocklist(a)`, so the ban list is the same list, and `a` is in it. -/
theorem addIPToBlocklist_idempotent (a : String) (s : Stores) :
    addIPToBlocklist a (addIPToBlocklist a s) = addIPToBlocklist a s ∧
    loadBlockedIps (addIPToBlocklist a (addIPToBlocklist a s))
      = loadBlockedIps (addIPToBlocklist a s) ∧
    a ∈ loadBlockedIps (addIPToBlocklist a s) := by
  have hsame : addIPToBlocklist a (addIPToBlocklist a s) = addIPToBlocklist a s :=
    addIPToBlocklist_of_blocked a _ (isIpBlocked_addIPToBlocklist a s)
  refine ⟨hsame, by rw [hsame], ?_⟩
  have hb := isIpBlocked_addIPToBlocklist a s
  unfold isIpBlocked at hb
  simpa using hb

/-! ## The ban list under the mutating operations -/

theorem isIpBlocked_iff_mem (s : Stores) (ip : String) :
    isIpBlocked s ip = true ↔ ip ∈ loadBlockedIps s := by
  unfold isIpBlocked
  simp

theorem loadBlockedIps_addIPToBlocklist (ip : String) (s : Stores) :
    loadBlockedIps (addIPToBlocklist ip s)
      = if ip ∈ loadBlockedIps s then loadBlockedIps s else loadBlockedIps s ++ [ip] := by
  unfold addIPToBlocklist
  by_cases h : ip ∈ loadBlockedIps s
  · have hc : (loadBlockedIps s).contains ip = true := by simpa using h
    simp only [hc, Bool.not_true, Bool.false_eq_true, if_false, h, if_true]
  · have hc : (loadBlockedIps s).contains ip = false := by simpa using h
    simp only [hc, Bool.not_false, if_true, h, if_false]
    rfl

theorem loadBlockedIps_removeIPFromBlocklist (ip : String) (s : Stores) :
    loadBlockedIps (removeIPFromBlocklist ip s)
      = (loadBlockedIps s).filter (fun blockedIp => blockedIp != ip) := rfl

/-- The ban list after `trackRequest`: as before, or as after
`addIPToBlocklist(ip)`. -/
theorem loadBlockedIps_trackRequest (ip : String) (cfg : Option RateLimitConfig) (now : Int)
    (s : Stores) :
    loadBlockedIps (trackRequest ip cfg now s).stores = loadBlockedIps s ∨
    loadBlockedIps (trackRequest ip cfg now s).stores
      = loadBlockedIps (addIPToBlocklist ip s) := by
  cases cfg with
  | none => exact Or.inl rfl
  | some c =>
    cases hrec : lookupRecord (removeOutdated (bumpRecord (loadRateLimitData s) ip now) now
        (c.window.getD DEFAULT_RATE_LIMIT_WINDOW)) ip with
    | none =>
      left
      unfold trackRequest
      simp only [hrec]
    | some r =>
      rw [trackRequest_of_swept ip c now s r hrec]
      by_cases hc : r.count > c.limit.getD DEFAULT_REQUEST_LIMIT
      · rw [if_pos hc]
        exact Or.inr rfl
      · rw [if_neg hc]
        exact Or.inl rfl

/-- The ban list after `logRequest`: that of `trackRequest` for the resolved
address, or untouched. -/
theorem loadBlockedIps_logRequest (x : Extern) (req : Request) (options : Options)
    (now timestamp : Int) (s : Stores) :
    loadBlockedIps (logRequest x req options now timestamp s).stores = loadBlockedIps s ∨
    loadBlockedIps (logRequest x req options now timestamp s).stores
      = loadBlockedIps (addIPToBlocklist (x.getClientIp req) s) := by
  cases hb : isClientBlocked s (logRequestClientIp req) with
  | true =>
    rw [logRequest_of_blocked x req options now timestamp s hb]
    exact Or.inl rfl
  | false =>
    cases hm : shouldLog req.method req.originalUrl options.saveEndpointsOrDefault with
    | throw e =>
      left
      simp only [logRequest, hb, hm, Bool.false_eq_true, if_false]
    | normal matched =>
      cases matched with
      | false =>
        rw [logRequest_of_unmatched x req options now timestamp s hb hm]
        exact Or.inl rfl
      | true =>
        have htr := loadBlockedIps_trackRequest (x.getClientIp req)
          (some options.rateLimitConfigOrDefault) now s
        cases hth : (trackRequest (x.getClientIp req) (some options.rateLimitConfigOrDefault)
            now s).thrown with
        | none =>
          cases hua : headerLookup req.headers "user-agent" with
          | none =>
            rw [logRequest_of_missing_user_agent x req options now timestamp s hb hm hth hua]
            exact htr
          | some header =>
            rw [logRequest_of_tracked x req options now timestamp s header hb hm hth hua,
              loadBlockedIps_saveLogs, loadBlockedIps_checkFileSizeAndClear]
            exact htr
        | some e =>
          rw [logRequest_of_track_throw x req options now timestamp s e hb hm hth]
          exact htr

theorem mem_loadBlockedIps_addIPToBlocklist (ip b : String) (s : Stores)
    (h : b ∈ loadBlockedIps s) : b ∈ loadBlockedIps (addIPToBlocklist ip s) := by
  rw [loadBlockedIps_addIPToBlocklist]
  split
  · exact h
  · exact List.mem_append_left _ h

theorem nodup_loadBlockedIps_addIPToBlocklist (ip : String) (s : Stores)
    (h : (loadBlockedIps s).Nodup) : (loadBlockedIps (addIPToBlocklist ip s)).Nodup := by
  rw [loadBlockedIps_addIPToBlocklist]
  split
  · exact h
  · next hmem =>
    rw [List.nodup_append]
    refine ⟨h, List.nodup_singleton ip, ?_⟩
    intro c hc hc1
    rw [List.mem_singleton] at hc1
    subst hc1
    exact hmem hc

/-! ## Claims on the ban list -/

/-- C11. A duplicate-free ban list stays duplicate-free under every mutating
operation: after `addIPToBlocklist(a)`, after `removeIPFromBlocklist(a)` and
after `trackRequest(a, cfg)`, whether or not it promotes `a`. -/
theorem blocklist_stays_duplicate_free (a : String) (cfg : Option RateLimitConfig) (now : Int)
    (s : Stores) (h : (loadBlockedIps s).Nodup) :
    (loadBlockedIps (addIPToBlocklist a s)).Nodup ∧
    (loadBlockedIps (removeIPFromBlocklist a s)).Nodup ∧
    (loadBlockedIps (trackRequest a cfg now s).stores).Nodup := by
  refine ⟨nodup_loadBlockedIps_addIPToBlocklist a s h, ?_, ?_⟩
  · rw [loadBlockedIps_removeIPFromBlocklist]
    exact h.filter _
  · rcases loadBlockedIps_trackRequest a cfg now s with he | he
    · rw [he]
      exact h
    · rw [he]
      exact nodup_loadBlockedIps_addIPToBlocklist a s h

/-- C11 on the ban list `["9.9.9.9"]` with limit 0: the call promotes `1.2.3.4`
and the ban list becomes `["9.9.9.9", "1.2.3.4"]`. -/
theorem blocklist_stays_duplicate_free_witness :
    (loadBlockedIps
      { blockedIps := some ["9.9.9.9"], rateLimit := none, logs := LogFile.missing }).Nodup ∧
    loadBlockedIps
      (trackRequest "1.2.3.4" (some { window := some 1000, limit := some 0 }) 5000
        { blockedIps := some ["9.9.9.9"], rateLimit := none, logs := LogFile.missing }).stores
      = ["9.9.9.9", "1.2.3.4"] ∧
    (loadBlockedIps
      (trackRequest "1.2.3.4" (some { window := some 1000, limit := some 0 }) 5000
        { blockedIps := some ["9.9.9.9"], rateLimit := none, logs := LogFile.missing
          }).stores).Nodup :=
  ⟨by decide, by decide,
    (blocklist_stays_duplicate_free "1.2.3.4" (some { window := some 1000, limit := some 0 })
      5000 { blockedIps := some ["9.9.9.9"], rateLimit := none, logs := LogFile.missing }
      (by decide)).2.2⟩

/-- C12. A banned address `b` stays banned through `trackRequest(a, cfg)`,
`addIPToBlocklist(a)`, `logRequest(req, ..)` and the two middlewares, and
through `removeIPFromBlocklist(a)` for `a ≠ b`; `removeIPFromBlocklist(b)` is
the operation that unbans it. -/
theorem banned_address_stays_banned (x : Extern) (req : Request) (options : Options)
    (a b : String) (cfg : Option RateLimitConfig) (now timestamp : Int) (s : Stores)
    (hb : isIpBlocked s b = true) :
    isIpBlocked (trackRequest a cfg now s).stores b = true ∧
    isIpBlocked (addIPToBlocklist a s) b = true ∧
    isIpBlocked (logRequest x req options now timestamp s).stores b = true ∧
    isIpBlocked (blockIPMiddleware req s).stores b = true ∧
    isIpBlocked (requestLogger x req now timestamp s).stores b = true ∧
    (a ≠ b → isIpBlocked (removeIPFromBlocklist a s) b = true) ∧
    isIpBlocked (removeIPFromBlocklist b s) b = false := by
  have hmem : b ∈ loadBlockedIps s := (isIpBlocked_iff_mem s b).mp hb
  have hadd : ∀ c, b ∈ loadBlockedIps (addIPToBlocklist c s) :=
    fun c => mem_loadBlockedIps_addIPToBlocklist c b s hmem
  refine ⟨?_, ?_, ?_, ?_, ?_, ?_, ?_⟩
  · rw [isIpBlocked_iff_mem]
    rcases loadBlockedIps_trackRequest a cfg now s with he | he
    · rw [he]; exact hmem
    · rw [he]; exact hadd a
  · rw [isIpBlocked_iff_mem]
    exact hadd a
  · rw [isIpBlocked_iff_mem]
    rcases loadBlockedIps_logRequest x req options now timestamp s with he | he
    · rw [he]; exact hmem
    · rw [he]; exact hadd _
  · unfold blockIPMiddleware
    simp only
    split <;> exact hb
  · have hthrow : requestLogger x req now timestamp s
        = { stores := s, status := none, nextCalls := 0, thrown := some JsError.typeError } := rfl
    rw [hthrow]
    exact hb
  · intro hne
    rw [isIpBlocked_iff_mem, loadBlockedIps_removeIPFromBlocklist, List.mem_filter]
    exact ⟨hmem, by simpa using fun h => hne h.symm⟩
  · cases hr : isIpBlocked (removeIPFromBlocklist b s) b with
    | false => rfl
    | true =>
      rw [isIpBlocked_iff_mem, loadBlockedIps_removeIPFromBlocklist, List.mem_filter] at hr
      simp at hr

/-- C12 on the ban list `["9.9.9.9"]`: `9.9.9.9` is still banned after a
promoting `trackRequest("1.2.3.4", ..)`. -/
theorem banned_address_stays_banned_witness :
    isIpBlocked { blockedIps := some ["9.9.9.9"], rateLimit := none, logs := LogFile.missing }
      "9.9.9.9" = true ∧
    isIpBlocked
      (trackRequest "1.2.3.4" (some { window := some 1000, limit := some 0 }) 5000
        { blockedIps := some ["9.9.9.9"], rateLimit := none, logs := LogFile.missing }).stores
      "9.9.9.9" = true :=
  ⟨by decide,
    (banned_address_stays_banned plainExtern (plainRequest "1.2.3.4" "GET" "/api/users")
      { saveEndpoints := some apiRules, maxSize := none, rateLimitConfig := none }
      "1.2.3.4" "9.9.9.9" (some { window := some 1000, limit := some 0 }) 5000 5000
      { blockedIps := some ["9.9.9.9"], rateLimit := none, logs := LogFile.missing }
      (by decide)).1⟩

/-- C13. `removeIPFromBlocklist(a)` unbans exactly `a`: afterwards
`isIpBlocked(b)` holds if and only if `b` was banned and `b ≠ a`, also when the
list held `a` several times; a second `removeIPFromBlocklist(a)` leaves the
files, and so the ban list, unchanged. -/
theorem removeIPFromBlocklist_unbans_exactly (a b : String) (s : Stores) :
    (isIpBlocked (removeIPFromBlocklist a s) b = true ↔ (isIpBlocked s b = true ∧ b ≠ a)) ∧
    removeIPFromBlocklist a (removeIPFromBlocklist a s) = removeIPFromBlocklist a s ∧
    loadBlockedIps (removeIPFromBlocklist a (removeIPFromBlocklist a s))
      = loadBlockedIps (removeIPFromBlocklist a s) := by
  have hidem : removeIPFromBlocklist a (removeIPFromBlocklist a s)
      = removeIPFromBlocklist a s := by
    unfold removeIPFromBlocklist
    show saveBlockedIps
        (List.filter (fun blockedIp => blockedIp != a)
          (List.filter (fun blockedIp => blockedIp != a) (loadBlockedIps s)))
        (saveBlockedIps (List.filter (fun blockedIp => blockedIp != a) (loadBlockedIps s)) s)
      = saveBlockedIps (List.filter (fun blockedIp => blockedIp != a) (loadBlockedIps s)) s
    rw [List.filter_filter]
    simp [saveBlockedIps]
  refine ⟨?_, hidem, by rw [hidem]⟩
  rw [isIpBlocked_iff_mem, isIpBlocked_iff_mem, loadBlockedIps_removeIPFromBlocklist,
    List.mem_filter]
  simp

/-! ## Rotation, defaults and the header filter -/

theorem loadLogs_checkFileSizeAndClear_of_larger (maxSize : Int) (s : Stores) (size : Nat)
    (content : Option (List LogEntry)) (hfile : s.logs = LogFile.present size content)
    (hsize : (size : Int) > maxSize) :
    loadLogs (checkFileSizeAndClear maxSize s) = [] := by
  unfold checkFileSizeAndClear
  rw [hfile]
  simp only [hsize, if_true]
  rfl

theorem loadLogs_checkFileSizeAndClear_of_not_larger (maxSize : Int) (s : Stores) (size : Nat)
    (content : Option (List LogEntry)) (hfile : s.logs = LogFile.present size content)
    (hsize : (size : Int) ≤ maxSize) :
    loadLogs (checkFileSizeAndClear maxSize s) = loadLogs s := by
  unfold checkFileSizeAndClear
  rw [hfile]
  have hn : ¬ (size : Int) > maxSize := not_lt.mpr hsize
  simp only [hn, if_false]

/-- The log after a matched request that reached the log step (`trackRequest`
returned and the request has a `user-agent` header): what
`checkFileSizeAndClear` left of the old log, then the new entry. -/
theorem loadLogs_logRequest_of_tracked (x : Extern) (req : Request) (options : Options)
    (now timestamp : Int) (s : Stores) (header : String)
    (hnb : isClientBlocked s (logRequestClientIp req) = false)
    (hm : shouldLog req.method req.originalUrl options.saveEndpointsOrDefault
      = Completion.normal true)
    (hok : (trackRequest (x.getClientIp req) (some options.rateLimitConfigOrDefault) now s).thrown
      = none)
    (hua : headerLookup req.headers "user-agent" = some header) :
    loadLogs (logRequest x req options now timestamp s).stores
      = loadLogs (checkFileSizeAndClear options.maxSizeOrDefault s)
          ++ [requestDetails x req timestamp (x.parseUserAgent header)] := by
  rw [logRequest_of_tracked x req options now timestamp s header hnb hm hok hua,
    loadLogs_saveLogs,
    loadLogs_checkFileSizeAndClear_congr options.maxSizeOrDefault _ s
      (trackRequest_logs (x.getClientIp req) (some options.rateLimitConfigOrDefault) now s)]

/-- Rotation for a matched request that reached the log step: a file larger
than `maxSize` is replaced by the new entry alone, a file of size at most
`maxSize` gets the entry appended after its prior entries. -/
theorem loadLogs_logRequest_rotation (x : Extern) (req : Request) (options : Options)
    (now timestamp : Int) (s : Stores) (size : Nat) (content : Option (List LogEntry))
    (header : String)
    (hnb : isClientBlocked s (logRequestClientIp req) = false)
    (hm : shouldLog req.method req.originalUrl options.saveEndpointsOrDefault
      = Completion.normal true)
    (hok : (trackRequest (x.getClientIp req) (some options.rateLimitConfigOrDefault) now s).thrown
      = none)
    (hua : headerLookup req.headers "user-agent" = some header)
    (hfile : s.logs = LogFile.present size content) :
    ((size : Int) > options.maxSizeOrDefault →
      loadLogs (logRequest x req options now timestamp s).stores
        = [requestDetails x req timestamp (x.parseUserAgent header)]) ∧
    ((size : Int) ≤ options.maxSizeOrDefault →
      loadLogs (logRequest x req options now timestamp s).stores
        = loadLogs s ++ [requestDetails x req timestamp (x.parseUserAgent header)]) := by
  have hlog := loadLogs_logRequest_of_tracked x req options now timestamp s header hnb hm hok hua
  refine ⟨fun hsize => ?_, fun hsize => ?_⟩
  · rw [hlog, loadLogs_checkFileSizeAndClear_of_larger _ s size content hfile hsize]
    rfl
  · rw [hlog, loadLogs_checkFileSizeAndClear_of_not_larger _ s size content hfile hsize]

/-- Promotion during a matched request that has a `user-agent` header: the call
sends no 403, appends the entry and calls `next()` once; the address is banned
afterwards, has no rate record, and a later call whose address of line 16 is
that address gets 403. -/
theorem logRequest_promotion_of_user_agent (x : Extern) (req later : Request)
    (options laterOptions : Options) (now timestamp laterNow laterTimestamp : Int)
    (s : Stores) (r : RateRecord) (header : String)
    (hnb : isClientBlocked s (logRequestClientIp req) = false)
    (hm : shouldLog req.method req.originalUrl options.saveEndpointsOrDefault
      = Completion.normal true)
    (hrec : lookupRecord
      (removeOutdated (bumpRecord (loadRateLimitData s) (x.getClientIp req) now) now
        (options.rateLimitConfigOrDefault.window.getD DEFAULT_RATE_LIMIT_WINDOW))
      (x.getClientIp req) = some r)
    (hexceeds : r.count > options.rateLimitConfigOrDefault.limit.getD DEFAULT_REQUEST_LIMIT)
    (hua : headerLookup req.headers "user-agent" = some header)
    (hlater : logRequestClientIp later = some (x.getClientIp req)) :
    logRequest x req options now timestamp s
      = { stores := (logRequest x req options now timestamp s).stores,
          status := none, nextCalls := 1, thrown := none } ∧
    loadLogs (logRequest x req options now timestamp s).stores
      = loadLogs (checkFileSizeAndClear options.maxSizeOrDefault s)
          ++ [requestDetails x req timestamp (x.parseUserAgent header)] ∧
    isIpBlocked (logRequest x req options now timestamp s).stores (x.getClientIp req) = true ∧
    lookupRecord (loadRateLimitData (logRequest x req options now timestamp s).stores)
      (x.getClientIp req) = none ∧
    logRequest x later laterOptions laterNow laterTimestamp
        (logRequest x req options now timestamp s).stores
      = { stores := (logRequest x req options now timestamp s).stores,
          status := some 403, nextCalls := 0, thrown := none } := by
  have htrack := trackRequest_of_swept (x.getClientIp req) options.rateLimitConfigOrDefault now s
    r hrec
  rw [if_pos hexceeds] at htrack
  have hok : (trackRequest (x.getClientIp req) (some options.rateLimitConfigOrDefault) now
      s).thrown = none := by
    rw [htrack]
  have hres := logRequest_of_tracked x req options now timestamp s header hnb hm hok hua
  have hbanned : isIpBlocked (logRequest x req options now timestamp s).stores
      (x.getClientIp req) = true := by
    rw [hres]
    unfold isIpBlocked
    rw [loadBlockedIps_saveLogs, loadBlockedIps_checkFileSizeAndClear, htrack,
      loadBlockedIps_saveRateLimitData]
    exact isIpBlocked_addIPToBlocklist _ s
  refine ⟨?_, ?_, hbanned, ?_, ?_⟩
  · rw [hres]
  · exact loadLogs_logRequest_of_tracked x req options now timestamp s header hnb hm hok hua
  · rw [hres, loadRateLimitData_saveLogs, loadRateLimitData_checkFileSizeAndClear, htrack,
      loadRateLimitData_saveRateLimitData]
    exact lookupRecord_deleteRecord _ _
  · exact logRequest_of_blocked x later laterOptions laterNow laterTimestamp _
      (by rw [hlater]; exact hbanned)

/-- A config object without `window` and/or `limit` is tracked as with the
defaults 1 800 000 ms and 1000. -/
theorem trackRequest_config_defaults (ip : String) (cfg : RateLimitConfig) (now : Int)
    (s : Stores) :
    trackRequest ip (some cfg) now s
      = trackRequest ip
          (some { window := some (cfg.window.getD 1800000), limit := some (cfg.limit.getD 1000) })
          now s := by
  have hw : DEFAULT_RATE_LIMIT_WINDOW = 1800000 := by decide
  have hl : DEFAULT_REQUEST_LIMIT = 1000 := rfl
  unfold trackRequest
  simp only [Option.getD_some, hw, hl]

theorem requestLogger_throws (x : Extern) (req : Request) (now timestamp : Int) (s : Stores) :
    requestLogger x req now timestamp s
      = { stores := s, status := none, nextCalls := 0, thrown := some JsError.typeError } := rfl

theorem toLower_eq_map (name : String) :
    name.toLower = String.mk (name.data.map Char.toLower) := by
  rw [String.toLower, String.map_eq]

theorem getRequestDetails_outcome (x : Extern) (req : Request)
    (cfg : Option RateLimitConfig) (now timestamp : Int) (s : Stores) (entry : LogEntry)
    (hret : (getRequestDetails x req cfg now timestamp s).outcome = Completion.normal entry) :
    ∃ userAgent : String, entry = requestDetails x req timestamp userAgent := by
  unfold getRequestDetails at hret
  cases hth : (trackRequest (x.getClientIp req) cfg now s).thrown with
  | none =>
    cases hua : headerLookup req.headers "user-agent" with
    | none =>
      simp only [hth, hua] at hret
      cases hret
    | some header =>
      simp only [hth, hua] at hret
      injection hret with h
      exact ⟨x.parseUserAgent header, h.symm⟩
  | some e =>
    simp only [hth] at hret
    cases hret

/-! ## Claims on rotation, defaults, the header filter and the empty ban list -/

/-- C14. A matched request from an address that is not banned does not always
rotate or append.  With a log of size 3 holding one entry and `maxSize` 2:
a `GET /api/users` from `1.2.3.4` without `user-agent` header is counted, then
`useragent.parse(undefined)` throws at line 112 of `geoIP.js`; and one with a
`user-agent` header whose address has the stale record
`{count: 1, firstRequest: 0}` (window 1000, clock 5000) makes `trackRequest`
throw at line 97.  Both throws come before `checkFileSizeAndClear`: the promise
is rejected, `next()` is not called, and the log file still has size 3 and
holds the earlier entry, not the entry of the request. -/
theorem logRequest_throw_leaves_log_unrotated :
    ((logRequest plainExtern (plainRequest "1.2.3.4" "GET" "/api/users")
        { saveEndpoints := some apiRules, maxSize := some 2, rateLimitConfig := none } 5000 5000
        { blockedIps := none, rateLimit := none,
          logs := LogFile.present 3 (some [earlierEntry]) })
      = { stores :=
            { blockedIps := none,
              rateLimit := some [("1.2.3.4", { count := 1, firstRequest := 5000 })],
              logs := LogFile.present 3 (some [earlierEntry]) },
          status := none, nextCalls := 0, thrown := some JsError.typeError }) ∧
    ((logRequest plainExtern (curlRequest "1.2.3.4" "GET" "/api/users")
        { saveEndpoints := some apiRules, maxSize := some 2,
          rateLimitConfig := some { window := some 1000, limit := some 3 } } 5000 5000
        { blockedIps := none,
          rateLimit := some [("1.2.3.4", { count := 1, firstRequest := 0 })],
          logs := LogFile.present 3 (some [earlierEntry]) })
      = { stores :=
            { blockedIps := none,
              rateLimit := some [("1.2.3.4", { count := 1, firstRequest := 0 })],
              logs := LogFile.present 3 (some [earlierEntry]) },
          status := none, nextCalls := 0, thrown := some JsError.typeError }) := by
  decide

/-- C15. A missing `rateLimitConfig` raises an error: `trackRequest(ip)` with
the config `undefined` throws a `TypeError` at the destructuring of line 74 and
tracks nothing, so the `requestLogger` middleware, which calls
`getRequestDetails(req)` with one argument, throws on a `GET /` from `1.2.3.4`
without calling `next()`. -/
theorem requestLogger_without_config_throws :
    trackRequest "1.2.3.4" none 5000 emptyStores
      = { stores := emptyStores, thrown := some JsError.typeError } ∧
    requestLogger plainExtern (plainRequest "1.2.3.4" "GET" "/") 5000 5000 emptyStores
      = { stores := emptyStores, status := none, nextCalls := 0,
          thrown := some JsError.typeError } ∧
    lookupRecord (loadRateLimitData
      (requestLogger plainExtern (plainRequest "1.2.3.4" "GET" "/") 5000 5000
        emptyStores).stores) "1.2.3.4" = none := by
  decide

/-- C16. The `headers` field of the entry returned by `getRequestDetails` holds
exactly the input headers whose lower-cased name is one of `host`, `referer`,
`content-type`, `accept`, with their original key and value and in their
original order; every other header is absent. -/
theorem getRequestDetails_keeps_essential_headers (x : Extern) (req : Request)
    (cfg : Option RateLimitConfig) (now timestamp : Int) (s : Stores) (entry : LogEntry)
    (hret : (getRequestDetails x req cfg now timestamp s).outcome = Completion.normal entry) :
    (∀ k v : String, (k, v) ∈ entry.headers ↔
      ((k, v) ∈ req.headers ∧ k.toLower ∈ ["host", "referer", "content-type", "accept"])) ∧
    entry.headers.Sublist req.headers := by
  obtain ⟨userAgent, hentry⟩ := getRequestDetails_outcome x req cfg now timestamp s entry hret
  rw [hentry]
  refine ⟨fun k v => ?_, ?_⟩
  · show (k, v) ∈ req.headers.filter (fun h => essentialHeaders.contains h.1.toLower) ↔ _
    rw [List.mem_filter]
    simp [essentialHeaders]
  · exact List.filter_sublist req.headers

/-- C16 on the headers `Host`, `cookie`, `accept`, `user-agent`: `Host` and
`accept` are kept, `cookie` and `user-agent` are dropped. -/
theorem getRequestDetails_keeps_essential_headers_witness :
    (requestDetails plainExtern
      { headers := [("Host", "example.com"), ("cookie", "sid=1"), ("accept", "*/*"),
          ("user-agent", "curl")],
        remoteAddress := some "1.2.3.4", socketRemoteAddress := some "1.2.3.4",
        method := "GET", originalUrl := "/api/users", body := "" } 5000 "curl").headers
      = [("Host", "example.com"), ("accept", "*/*")] ∧
    ((("Host", "example.com") : String × String) ∈ (requestDetails plainExtern
      { headers := [("Host", "example.com"), ("cookie", "sid=1"), ("accept", "*/*"),
          ("user-agent", "curl")],
        remoteAddress := some "1.2.3.4", socketRemoteAddress := some "1.2.3.4",
        method := "GET", originalUrl := "/api/users", body := "" } 5000 "curl").headers ↔
      ((("Host", "example.com") : String × String) ∈
          [("Host", "example.com"), ("cookie", "sid=1"), ("accept", "*/*"),
            ("user-agent", "curl")] ∧
        "Host".toLower ∈ ["host", "referer", "content-type", "accept"])) :=
  ⟨by
    simp only [requestDetails, toLower_eq_map]
    decide,
    (getRequestDetails_keeps_essential_headers plainExtern
      { headers := [("Host", "example.com"), ("cookie", "sid=1"), ("accept", "*/*"),
          ("user-agent", "curl")],
        remoteAddress := some "1.2.3.4", socketRemoteAddress := some "1.2.3.4",
        method := "GET", originalUrl := "/api/users", body := "" }
      (some { window := some 1000, limit := some 3 }) 5000 5000 emptyStores _ rfl).1
      "Host" "example.com"⟩

/-- C17. `isIpBlocked(a)` is `false` for every address when the ban-list file
is missing or unreadable (the load fails and yields `[]`) or holds the empty
list; the function is total, it raises nothing. -/
theorem isIpBlocked_false_without_ban_list (s : Stores) (a : String)
    (h : s.blockedIps = none ∨ s.blockedIps = some []) :
    isIpBlocked s a = false := by
  unfold isIpBlocked loadBlockedIps
  rcases h with h | h <;> rw [h] <;> rfl

/-- C17 for `5.6.7.8` when no file exists. -/
theorem isIpBlocked_false_without_ban_list_witness :
    (emptyStores.blockedIps = none ∨ emptyStores.blockedIps = some []) ∧
    isIpBlocked emptyStores "5.6.7.8" = false :=
  ⟨Or.inl rfl, isIpBlocked_false_without_ban_list emptyStores "5.6.7.8" (Or.inl rfl)⟩

/-! ## The records of other addresses -/

theorem lookupRecord_filter_key_ne (data : RateLimitData) (a b : String) (hne : b ≠ a) :
    lookupRecord (data.filter (fun e => e.1 != a)) b = lookupRecord data b := by
  induction data with
  | nil => rfl
  | cons e rest ih =>
    obtain ⟨k, r0⟩ := e
    by_cases hk : k = a
    · rw [List.filter_cons_of_neg (by simp [hk])]
      have hkb : ¬ k = b := fun h => hne (h.symm.trans hk)
      simp only [lookupRecord, hkb, if_false]
      exact ih
    · rw [List.filter_cons_of_pos (by simp [hk])]
      simp only [lookupRecord, ih]

theorem lookupRecord_filter_of_none (p : String × RateRecord → Bool) (data : RateLimitData)
    (b : String) (h : lookupRecord data b = none) : lookupRecord (data.filter p) b = none := by
  induction data with
  | nil => rfl
  | cons e rest ih =>
    obtain ⟨k, r0⟩ := e
    by_cases hk : k = b
    · simp [lookupRecord, hk] at h
    · simp only [lookupRecord, hk, if_false] at h
      by_cases hq : p (k, r0) = true
      · rw [List.filter_cons_of_pos hq]
        simp only [lookupRecord, hk, if_false]
        exact ih h
      · rw [List.filter_cons_of_neg hq]
        exact ih h

theorem lookupRecord_putRecord_of_ne (data : RateLimitData) (a b : String) (r : RateRecord)
    (hne : b ≠ a) : lookupRecord (putRecord data a r) b = lookupRecord data b := by
  induction data with
  | nil =>
    have hab : ¬ a = b := fun h => hne h.symm
    simp [putRecord, lookupRecord, hab]
  | cons e rest ih =>
    obtain ⟨k, r0⟩ := e
    by_cases hk : k = a
    · have hkb : ¬ k = b := fun h => hne (h.symm.trans hk)
      simp only [putRecord, hk, if_true, lookupRecord]
      have hab : ¬ a = b := fun h => hne h.symm
      simp only [hab, if_false]
      exact lookupRecord_filter_key_ne rest a b hne
    · simp only [putRecord, hk, if_false, lookupRecord, ih]

theorem lookupRecord_bumpRecord_of_ne (data : RateLimitData) (a b : String) (now : Int)
    (hne : b ≠ a) : lookupRecord (bumpRecord data a now) b = lookupRecord data b := by
  unfold bumpRecord
  cases lookupRecord data a with
  | none => exact lookupRecord_putRecord_of_ne data a b _ hne
  | some r => exact lookupRecord_putRecord_of_ne data a b _ hne

/-- The rate store after `trackRequest`: the one before (a throw), the swept
one, or the swept one without the record of `ip`. -/
theorem loadRateLimitData_trackRequest (ip : String) (cfg : RateLimitConfig) (now : Int)
    (s : Stores) :
    loadRateLimitData (trackRequest ip (some cfg) now s).stores = loadRateLimitData s ∨
    loadRateLimitData (trackRequest ip (some cfg) now s).stores
      = removeOutdated (bumpRecord (loadRateLimitData s) ip now) now
          (cfg.window.getD DEFAULT_RATE_LIMIT_WINDOW) ∨
    loadRateLimitData (trackRequest ip (some cfg) now s).stores
      = deleteRecord (removeOutdated (bumpRecord (loadRateLimitData s) ip now) now
          (cfg.window.getD DEFAULT_RATE_LIMIT_WINDOW)) ip := by
  cases hrec : lookupRecord (removeOutdated (bumpRecord (loadRateLimitData s) ip now) now
      (cfg.window.getD DEFAULT_RATE_LIMIT_WINDOW)) ip with
  | none =>
    left
    unfold trackRequest
    simp only [hrec]
  | some r =>
    rw [trackRequest_of_swept ip cfg now s r hrec]
    by_cases hc : r.count > cfg.limit.getD DEFAULT_REQUEST_LIMIT
    · rw [if_pos hc]
      exact Or.inr (Or.inr rfl)
    · rw [if_neg hc]
      exact Or.inr (Or.inl rfl)

/-! ## The block decision -/

/-- `logRequest` sends 403 exactly when the address of line 16 is banned. -/
theorem logRequest_status (x : Extern) (req : Request) (options : Options)
    (now timestamp : Int) (s : Stores) :
    (logRequest x req options now timestamp s).status
      = if isClientBlocked s (logRequestClientIp req) = true then some 403 else none := by
  cases hb : isClientBlocked s (logRequestClientIp req) with
  | true =>
    rw [logRequest_of_blocked x req options now timestamp s hb]
    rfl
  | false =>
    cases hm : shouldLog req.method req.originalUrl options.saveEndpointsOrDefault with
    | throw e => simp only [logRequest, hb, hm, Bool.false_eq_true, if_false]
    | normal matched =>
      cases matched with
      | false =>
        rw [logRequest_of_unmatched x req options now timestamp s hb hm]
        rfl
      | true =>
        cases hth : (trackRequest (x.getClientIp req) (some options.rateLimitConfigOrDefault)
            now s).thrown with
        | none =>
          cases hua : headerLookup req.headers "user-agent" with
          | none =>
            rw [logRequest_of_missing_user_agent x req options now timestamp s hb hm hth hua]
            rfl
          | some header =>
            rw [logRequest_of_tracked x req options now timestamp s header hb hm hth hua]
            rfl
        | some e =>
          rw [logRequest_of_track_throw x req options now timestamp s e hb hm hth]
          rfl

theorem logRequestClientIp_of_forwarded (req : Request) (v : String)
    (h : headerLookup req.headers "x-forwarded-for" = some v) (hv : v ≠ "") :
    logRequestClientIp req = some v := by
  unfold logRequestClientIp orElse
  rw [h]
  simp only [hv, if_false]

/-! ## Claims on the frame of `trackRequest` and on the block decision -/

/-- C18. `trackRequest(a, cfg)` touches only what it must: for every address
`b ≠ a`, a record of `b` that is not stale is in the saved rate store exactly
as before, no record appears for `b` when it had none, and the ban list
afterwards is the one before or the one before with `a` added at its end. -/
theorem trackRequest_touches_only_its_address (a b : String) (cfg : RateLimitConfig)
    (now : Int) (s : Stores) (hne : b ≠ a) :
    (∀ r : RateRecord, lookupRecord (loadRateLimitData s) b = some r →
      now - r.firstRequest ≤ cfg.window.getD DEFAULT_RATE_LIMIT_WINDOW →
      lookupRecord (loadRateLimitData (trackRequest a (some cfg) now s).stores) b = some r) ∧
    (lookupRecord (loadRateLimitData s) b = none →
      lookupRecord (loadRateLimitData (trackRequest a (some cfg) now s).stores) b = none) ∧
    (loadBlockedIps (trackRequest a (some cfg) now s).stores = loadBlockedIps s ∨
      loadBlockedIps (trackRequest a (some cfg) now s).stores = loadBlockedIps s ++ [a]) := by
  refine ⟨fun r hr hfresh => ?_, fun hnone => ?_, ?_⟩
  · have hkeep : lookupRecord (removeOutdated (bumpRecord (loadRateLimitData s) a now) now
        (cfg.window.getD DEFAULT_RATE_LIMIT_WINDOW)) b = some r := by
      unfold removeOutdated
      apply lookupRecord_filter_of_keep
      · rw [lookupRecord_bumpRecord_of_ne _ a b now hne]
        exact hr
      · simp only [gt_iff_lt, Bool.not_eq_true', decide_eq_false_iff_not, not_lt]
        exact hfresh
    rcases loadRateLimitData_trackRequest a cfg now s with he | he | he
    · rw [he]; exact hr
    · rw [he]; exact hkeep
    · rw [he]
      unfold deleteRecord
      rw [lookupRecord_filter_key_ne _ a b hne]
      exact hkeep
  · have hkeep : lookupRecord (removeOutdated (bumpRecord (loadRateLimitData s) a now) now
        (cfg.window.getD DEFAULT_RATE_LIMIT_WINDOW)) b = none := by
      unfold removeOutdated
      apply lookupRecord_filter_of_none
      rw [lookupRecord_bumpRecord_of_ne _ a b now hne]
      exact hnone
    rcases loadRateLimitData_trackRequest a cfg now s with he | he | he
    · rw [he]; exact hnone
    · rw [he]; exact hkeep
    · rw [he]
      unfold deleteRecord
      rw [lookupRecord_filter_key_ne _ a b hne]
      exact hkeep
  · rcases loadBlockedIps_trackRequest a (some cfg) now s with he | he
    · exact Or.inl he
    · rw [he, loadBlockedIps_addIPToBlocklist]
      by_cases hmem : a ∈ loadBlockedIps s
      · rw [if_pos hmem]
        exact Or.inl rfl
      · rw [if_neg hmem]
        exact Or.inr rfl

/-- C18 with window 1000 at clock 5000: the fresh record of `9.9.9.9` is kept
as it was by a promoting call for `1.2.3.4`, while the stale record of
`7.7.7.7` is swept. -/
theorem trackRequest_touches_only_its_address_witness :
    ("9.9.9.9" ≠ "1.2.3.4" ∧
      lookupRecord (loadRateLimitData
        { blockedIps := some [],
          rateLimit := some [("9.9.9.9", { count := 2, firstRequest := 4500 }),
                             ("7.7.7.7", { count := 5, firstRequest := 0 })],
          logs := LogFile.missing }) "9.9.9.9" = some { count := 2, firstRequest := 4500 } ∧
      (5000 : Int) - 4500 ≤ 1000) ∧
    lookupRecord (loadRateLimitData
      (trackRequest "1.2.3.4" (some { window := some 1000, limit := some 0 }) 5000
        { blockedIps := some [],
          rateLimit := some [("9.9.9.9", { count := 2, firstRequest := 4500 }),
                             ("7.7.7.7", { count := 5, firstRequest := 0 })],
          logs := LogFile.missing }).stores) "9.9.9.9"
      = some { count := 2, firstRequest := 4500 } ∧
    loadRateLimitData
      (trackRequest "1.2.3.4" (some { window := some 1000, limit := some 0 }) 5000
        { blockedIps := some [],
          rateLimit := some [("9.9.9.9", { count := 2, firstRequest := 4500 }),
                             ("7.7.7.7", { count := 5, firstRequest := 0 })],
          logs := LogFile.missing }).stores
      = [("9.9.9.9", { count := 2, firstRequest := 4500 })] :=
  ⟨⟨by decide, by decide, by decide⟩,
    (trackRequest_touches_only_its_address "1.2.3.4" "9.9.9.9"
      { window := some 1000, limit := some 0 } 5000
      { blockedIps := some [],
        rateLimit := some [("9.9.9.9", { count := 2, firstRequest := 4500 }),
                           ("7.7.7.7", { count := 5, firstRequest := 0 })],
        logs := LogFile.missing } (by decide)).1 { count := 2, firstRequest := 4500 }
      (by decide) (by decide),
    by decide⟩

/-- C19. When the `x-forwarded-for` header is present and not empty, the block
decision of `logRequest` depends on that header and the ban list only: two
requests with the same header value, whatever their connection addresses,
options and other files, are both answered with 403 or neither is; so a request
from a banned connection address `r` whose `x-forwarded-for` value is not banned
is not rejected by `logRequest`, while `blockIPMiddleware`, which reads
`remoteAddress` first, answers it with 403 and does not call `next()`. -/
theorem logRequest_block_decision_follows_forwarded_header (x : Extern)
    (req1 req2 : Request) (options1 options2 : Options)
    (now1 timestamp1 now2 timestamp2 : Int) (s1 s2 : Stores) (v : String)
    (h1 : headerLookup req1.headers "x-forwarded-for" = some v)
    (h2 : headerLookup req2.headers "x-forwarded-for" = some v)
    (hv : v ≠ "")
    (hban : loadBlockedIps s1 = loadBlockedIps s2) :
    ((logRequest x req1 options1 now1 timestamp1 s1).status = some 403 ↔
      (logRequest x req2 options2 now2 timestamp2 s2).status = some 403) ∧
    (∀ r : String, req1.remoteAddress = some r → r ≠ "" → isIpBlocked s1 r = true →
      isIpBlocked s1 v = false →
      (logRequest x req1 options1 now1 timestamp1 s1).status = none ∧
      (blockIPMiddleware req1 s1).status = some 403 ∧
      (blockIPMiddleware req1 s1).nextCalls = 0) := by
  have hc1 := logRequestClientIp_of_forwarded req1 v h1 hv
  have hc2 := logRequestClientIp_of_forwarded req2 v h2 hv
  have hsame : isIpBlocked s1 v = isIpBlocked s2 v := by
    unfold isIpBlocked
    rw [hban]
  refine ⟨?_, fun r hr hrne hrban hvfree => ?_⟩
  · rw [logRequest_status, logRequest_status, hc1, hc2]
    show (if isIpBlocked s1 v = true then some 403 else none) = some 403 ↔
      (if isIpBlocked s2 v = true then some 403 else none) = some 403
    rw [hsame]
  · refine ⟨?_, ?_, ?_⟩
    · rw [logRequest_status, hc1]
      show (if isIpBlocked s1 v = true then some 403 else none) = none
      rw [hvfree]
      rfl
    · unfold blockIPMiddleware orElse
      simp only [hr, hrne, if_false, isClientBlocked, hrban, if_true]
    · unfold blockIPMiddleware orElse
      simp only [hr, hrne, if_false, isClientBlocked, hrban, if_true]

/-- C19 for a request from the banned connection address `1.2.3.4` that carries
`x-forwarded-for: 8.8.8.8`: `logRequest` does not reject it,
`blockIPMiddleware` does. -/
theorem logRequest_block_decision_follows_forwarded_header_witness :
    (headerLookup [("x-forwarded-for", "8.8.8.8")] "x-forwarded-for" = some "8.8.8.8" ∧
      "8.8.8.8" ≠ "") ∧
    (logRequest plainExtern
      { headers := [("x-forwarded-for", "8.8.8.8")], remoteAddress := some "1.2.3.4",
        socketRemoteAddress := some "1.2.3.4", method := "GET", originalUrl := "/api/users",
        body := "" }
      { saveEndpoints := some apiRules, maxSize := none, rateLimitConfig := none } 5000 5000
      { blockedIps := some ["1.2.3.4"], rateLimit := none, logs := LogFile.missing }).status
      = none ∧
    (blockIPMiddleware
      { headers := [("x-forwarded-for", "8.8.8.8")], remoteAddress := some "1.2.3.4",
        socketRemoteAddress := some "1.2.3.4", method := "GET", originalUrl := "/api/users",
        body := "" }
      { blockedIps := some ["1.2.3.4"], rateLimit := none, logs := LogFile.missing }).status
      = some 403 :=
  have h := (logRequest_block_decision_follows_forwarded_header plainExtern
    { headers := [("x-forwarded-for", "8.8.8.8")], remoteAddress := some "1.2.3.4",
      socketRemoteAddress := some "1.2.3.4", method := "GET", originalUrl := "/api/users",
      body := "" }
    { headers := [("x-forwarded-for", "8.8.8.8")], remoteAddress := some "6.6.6.6",
      socketRemoteAddress := some "6.6.6.6", method := "GET", originalUrl := "/api/users",
      body := "" }
    { saveEndpoints := some apiRules, maxSize := none, rateLimitConfig := none }
    { saveEndpoints := some apiRules, maxSize := none, rateLimitConfig := none }
    5000 5000 5000 5000
    { blockedIps := some ["1.2.3.4"], rateLimit := none, logs := LogFile.missing }
    { blockedIps := some ["1.2.3.4"], rateLimit := none, logs := LogFile.missing }
    "8.8.8.8" (by decide) (by decide) (by decide) rfl).2 "1.2.3.4" rfl (by decide) (by decide)
    (by decide)
  ⟨⟨by decide, by decide⟩, h.1, h.2.1⟩

end NextjsSecurity
